import Mathlib

/-!
Verification of the adaptive-opponent engine of the NeuroMatch memory game.

The development shallowly embeds two source modules:
* `patternGenerator` (`generatePattern` and its strategy helpers), and
* the `AIPlayer` class (recall simulation, outcome recording, difficulty
  adjustment and challenge composition).

Modelling conventions:
* JavaScript numbers are modelled as rationals (`ℚ`); every arithmetic step of
  the source is an exact rational operation, and all the properties proved here
  concern comparisons, clamps and set-shaped data, not float rounding.
* Each `Math.random()` call site consumes a value from a caller-supplied
  oracle.  A draw `q` stands for the value returned by `Math.random()`; a
  theorem that needs the real generator's guarantee `0 ≤ q < 1` carries it as a
  hypothesis (`ValidQ` / `ValidStream`).
* `array.sort(cmp)` with a random comparator produces some permutation of the
  array; it is modelled by an oracle that directly supplies the permuted list,
  constrained by a `Perm` hypothesis where needed.
* Loops whose exit is probabilistic (rejection sampling) take a fuel argument
  and return `Option`; `some` captures every run of the source that
  terminates.
* JavaScript objects used as integer-keyed tables are modelled as association
  lists; `Object.entries` enumerates integer-like keys in ascending order, so
  the table operations keep keys ascending.
-/

/-- A draw produced by `Math.random()`: a value in `[0, 1)`. -/
def ValidQ (q : ℚ) : Prop := 0 ≤ q ∧ q < 1

/-- A stream of `Math.random()` draws. -/
def ValidStream (f : Nat → ℚ) : Prop := ∀ i, ValidQ (f i)

/-- `Math.floor(q * n)` for a draw `q`, as a natural number. -/
def floorMul (q : ℚ) (n : Nat) : Nat := (⌊q * (n : ℚ)⌋).toNat

theorem floorMul_lt {q : ℚ} (h : ValidQ q) {n : Nat} (hn : 1 ≤ n) :
    floorMul q n < n := by
  have h1 : q * n < (n : ℚ) := by
    have hpos : (0:ℚ) < n := by exact_mod_cast hn
    calc q * n < 1 * n := mul_lt_mul_of_pos_right h.2 hpos
    _ = n := one_mul _
  have h2 : ⌊q * (n:ℚ)⌋ < (n : ℤ) := Int.floor_lt.mpr (by exact_mod_cast h1)
  unfold floorMul
  omega

theorem floorMul_zero_right (q : ℚ) : floorMul q 0 = 0 := by
  unfold floorMul
  rw [Nat.cast_zero, mul_zero]
  simp

theorem floorMul_zero_left (n : Nat) : floorMul 0 n = 0 := by
  unfold floorMul
  rw [zero_mul]
  simp

/-! ### List swap, as performed by `[a[i], a[j]] = [a[j], a[i]]` -/

/-- Swap the entries at positions `i` and `j`; out-of-range positions leave the
list unchanged (the source only ever swaps in-range positions). -/
def listSwap {α : Type} (l : List α) (i j : Nat) : List α :=
  if h : i < l.length ∧ j < l.length then
    (l.set i (l.get ⟨j, h.2⟩)).set j (l.get ⟨i, h.1⟩)
  else l

theorem listSwap_perm {α : Type} [DecidableEq α] (l : List α) (i j : Nat) :
    (listSwap l i j).Perm l := by
  unfold listSwap
  split
  · next h =>
    obtain ⟨hi, hj⟩ := h
    rw [List.perm_iff_count]
    intro a
    have hj' : j < (l.set i (l.get ⟨j, hj⟩)).length := by simpa using hj
    rw [List.count_set _ _ _ _ hj', List.count_set _ _ _ _ hi]
    have hgj : (l.set i (l.get ⟨j, hj⟩))[j] = l[j] := by
      rw [List.getElem_set]
      split
      · next hij => subst hij; simp [List.get_eq_getElem]
      · rfl
    rw [hgj]
    have hc1 : l[i] = a → 1 ≤ List.count a l := fun hh =>
      List.one_le_count_iff.mpr (hh ▸ List.getElem_mem hi)
    have hc2 : l[j] = a → 1 ≤ List.count a l := fun hh =>
      List.one_le_count_iff.mpr (hh ▸ List.getElem_mem hj)
    simp only [List.get_eq_getElem, beq_iff_eq]
    by_cases h1 : l[i] = a
    · have hb1 := hc1 h1
      by_cases h2 : l[j] = a
      · simp only [h1, h2, if_true]
        omega
      · simp only [h1, h2, if_true, if_false]
        omega
    · by_cases h2 : l[j] = a
      · have hb2 := hc2 h2
        simp only [h1, h2, if_true, if_false]
        omega
      · simp only [h1, h2, if_false]
        omega
  · exact List.Perm.refl l

theorem listSwap_length {α : Type} (l : List α) (i j : Nat) :
    (listSwap l i j).length = l.length := by
  unfold listSwap
  split <;> simp

/-! ### Fisher–Yates shuffle (`_shuffleArray` and the generator's shuffle) -/

/-- The loop of the Fisher–Yates shuffle: at counter value `i+1` it swaps
position `i+1` with `Math.floor(Math.random() * (i+2))`. -/
def fyAux {α : Type} (draws : Nat → ℚ) : Nat → List α → List α
  | 0, l => l
  | i + 1, l => fyAux draws i (listSwap l (i + 1) (floorMul (draws (i + 1)) (i + 2)))

/-- Fisher–Yates shuffle of a list, with `draws i` the `Math.random()` value
consumed at loop index `i`. -/
def fisherYates {α : Type} (draws : Nat → ℚ) (l : List α) : List α :=
  fyAux draws (l.length - 1) l

theorem fyAux_perm {α : Type} [DecidableEq α] (draws : Nat → ℚ) :
    ∀ (n : Nat) (l : List α), (fyAux draws n l).Perm l
  | 0, l => List.Perm.refl l
  | n + 1, l =>
    (fyAux_perm draws n _).trans (listSwap_perm l (n + 1) _)

theorem fisherYates_perm {α : Type} [DecidableEq α] (draws : Nat → ℚ) (l : List α) :
    (fisherYates draws l).Perm l := fyAux_perm draws _ l

/-!
## Pattern generator (`patternGenerator.js`)

`generatePattern(gridSize, patternLength, patternType)` dispatches on the
strategy after clamping the length to `gridSize²`.  Unknown strategy strings
fall through to the uniform-random strategy, so the strategy is an enum of the
three recognised cases.
-/

inductive PatternType
  | random
  | sequential
  | shape
deriving DecidableEq, Repr

/-- `generateRandomPattern`: Fisher–Yates shuffle of all tile indices,
truncated to the requested length. -/
def generateRandomPattern (gridSize patternLength : Nat) (draws : Nat → ℚ) : List Nat :=
  (fisherYates draws (List.range (gridSize * gridSize))).take patternLength

/-- Oracle for one call of `generateSequentialPattern`: the start-tile draw,
the randomly ordered direction list of each loop iteration (the source sorts
`[-gridSize, 1, gridSize, -1]` with a random comparator, which produces some
permutation of it), and the draws of the random padding pattern. -/
structure SeqOracle where
  start : ℚ
  dirOrders : Nat → List Int
  pad : Nat → ℚ

/-- Try the candidate directions in order; return the first valid next tile:
in range, unvisited, and not wrapping around the left or right grid edge. -/
def findNextTile (gridSize total : Nat) (pattern : List Nat) (cur : Nat) :
    List Int → Option Nat
  | [] => none
  | d :: ds =>
    let next : Int := (cur : Int) + d
    if 0 ≤ next ∧ next < (total : Int) ∧ next.toNat ∉ pattern ∧
        ¬(d = 1 ∧ cur % gridSize = gridSize - 1) ∧ ¬(d = -1 ∧ cur % gridSize = 0) then
      some next.toNat
    else findNextTile gridSize total pattern cur ds

/-- The adjacency-walk loop: `n` counts the tiles still to add (the loop `while
(pattern.length < patternLength)` adds one tile per iteration or breaks),
`k` indexes the per-iteration direction orders. -/
def seqWalk (gridSize total : Nat) (dirOrders : Nat → List Int) :
    Nat → Nat → List Nat → Nat → List Nat
  | _, 0, pattern, _ => pattern
  | k, n + 1, pattern, cur =>
    match findNextTile gridSize total pattern cur (dirOrders k) with
    | none => pattern
    | some next => seqWalk gridSize total dirOrders (k + 1) n (pattern ++ [next]) next

/-- `generateSequentialPattern`: walk from a random start tile; if the walk
stops early, pad with the tiles of a fresh random pattern that are not already
in the walk. -/
def generateSequentialPattern (gridSize patternLength : Nat) (o : SeqOracle) : List Nat :=
  let total := gridSize * gridSize
  let startIndex := floorMul o.start total
  let pattern := seqWalk gridSize total o.dirOrders 0 (patternLength - 1) [startIndex] startIndex
  if pattern.length < patternLength then
    let remainingTiles :=
      (generateRandomPattern gridSize (patternLength - pattern.length) o.pad).filter
        (fun idx => idx ∉ pattern)
    pattern ++ remainingTiles.take (patternLength - pattern.length)
  else pattern

/-- Oracle for one call of `generateShapePattern`: the shape choice, the two
boolean-ish draws inside the shape generators, the draws of the random
fallback pattern, and the draws of the random padding pattern. -/
structure ShapeOracle where
  choice : ℚ
  d1 : ℚ
  d2 : ℚ
  d3 : ℚ
  fallback : Nat → ℚ
  pad : Nat → ℚ

/-- `generateLine`: a random horizontal or vertical full line. -/
def generateLine (gridSize : Nat) (o : ShapeOracle) : List Nat :=
  let isHorizontal := o.d1 > 0.5
  let lineIndex := floorMul o.d2 gridSize
  if isHorizontal then (List.range gridSize).map (fun i => lineIndex * gridSize + i)
  else (List.range gridSize).map (fun i => i * gridSize + lineIndex)

/-- `generateDiagonal`: the main or the anti-diagonal. -/
def generateDiagonal (gridSize : Nat) (o : ShapeOracle) : List Nat :=
  let isMainDiagonal := o.d1 > 0.5
  if isMainDiagonal then (List.range gridSize).map (fun i => i * gridSize + i)
  else (List.range gridSize).map (fun i => i * gridSize + (gridSize - 1 - i))

/-- `generateSquare`: a 2×2 square at a random corner; random fallback below
3×3. -/
def generateSquare (gridSize : Nat) (o : ShapeOracle) : List Nat :=
  if gridSize < 3 then generateRandomPattern gridSize (gridSize * 2) o.fallback
  else
    let maxCorner := gridSize - 2
    let row := floorMul o.d2 maxCorner
    let col := floorMul o.d3 maxCorner
    [row * gridSize + col, row * gridSize + col + 1,
     (row + 1) * gridSize + col, (row + 1) * gridSize + col + 1]

/-- `generateCross`: a plus shape around the centre; random fallback on even or
small grids. -/
def generateCross (gridSize : Nat) (o : ShapeOracle) : List Nat :=
  if gridSize < 3 ∨ gridSize % 2 = 0 then
    generateRandomPattern gridSize (gridSize * 2) o.fallback
  else
    let center := gridSize / 2
    let centerIndex := center * gridSize + center
    [centerIndex, centerIndex - gridSize, centerIndex + 1,
     centerIndex + gridSize, centerIndex - 1]

/-- `generateShapePattern`: pick one of the four shape generators at random,
truncate if too long, pad with fresh random tiles not already present if too
short. -/
def generateShapePattern (gridSize patternLength : Nat) (o : ShapeOracle) : List Nat :=
  if gridSize < 3 then generateRandomPattern gridSize patternLength o.fallback
  else
    let pattern :=
      match floorMul o.choice 4 with
      | 0 => generateLine gridSize o
      | 1 => generateDiagonal gridSize o
      | 2 => generateSquare gridSize o
      | _ => generateCross gridSize o
    if pattern.length > patternLength then pattern.take patternLength
    else if pattern.length < patternLength then
      let additionalTiles :=
        (generateRandomPattern gridSize (patternLength - pattern.length) o.pad).filter
          (fun idx => idx ∉ pattern)
      pattern ++ additionalTiles.take (patternLength - pattern.length)
    else pattern

/-- Oracle for one `generatePattern` call, holding the draws of whichever
strategy is selected. -/
structure GenOracle where
  rand : Nat → ℚ
  seq : SeqOracle
  shapes : ShapeOracle

/-- `generatePattern(gridSize, patternLength, patternType)`: clamp the length
to the number of tiles, then dispatch on the strategy. -/
def generatePattern (gridSize patternLength : Nat) (patternType : PatternType)
    (o : GenOracle) : List Nat :=
  let totalTiles := gridSize * gridSize
  let safePatternLength := min patternLength totalTiles
  match patternType with
  | .sequential => generateSequentialPattern gridSize safePatternLength o.seq
  | .shape => generateShapePattern gridSize safePatternLength o.shapes
  | .random => generateRandomPattern gridSize safePatternLength o.rand

/-- A concrete run of `generatePattern(5, 5, 'shape')`: the shape draw selects
the 2×2 square at the top-left corner, and the single padding tile drawn is
already part of the square, so the padding filter discards it. -/
def shortfallOracle : GenOracle where
  rand := fun _ => 0
  seq := { start := 0, dirOrders := fun _ => [], pad := fun _ => 0 }
  shapes := { choice := 0.5, d1 := 0, d2 := 0, d3 := 0, fallback := fun _ => 0, pad := fun _ => 0 }

theorem floorMul_eval {q : ℚ} {n m : Nat} (h : ⌊q * (n : ℚ)⌋ = (m : ℤ)) :
    floorMul q n = m := by
  unfold floorMul
  rw [h]
  simp

/-- Claim C1: the pattern generator's length contract fails on the code.  The
repository's own test expects `generatePattern(5, 5, 'shape')` to return 5
tiles, but for this random outcome the square shape yields 4 tiles and the
padding (`generateRandomPattern(...).filter(idx => !pattern.includes(idx))`)
draws only tiles that are already in the pattern, so the result has 4 ≠
min(5, 25) cells.  (The sequential walk's padding has the same shortfall.) -/
theorem generatePattern_shape_length_shortfall :
    generatePattern 5 5 .shape shortfallOracle = [0, 1, 5, 6] ∧
      (generatePattern 5 5 .shape shortfallOracle).length ≠ min 5 (5 * 5) := by
  have hc : floorMul (0.5 : ℚ) 4 = 2 := floorMul_eval (by norm_num)
  have hc2 : floorMul ((1 : ℚ) / 2) 4 = 2 := floorMul_eval (by norm_num)
  have h : generatePattern 5 5 .shape shortfallOracle = [0, 1, 5, 6] := by
    norm_num [generatePattern, generateShapePattern, generateSquare, generateRandomPattern,
      fisherYates, fyAux, listSwap, shortfallOracle, hc, hc2, floorMul_zero_left]
    all_goals decide
  refine ⟨h, ?_⟩
  rw [h]
  decide



/-!
## The `AIPlayer` class (`aiPlayer.js`)

The opponent state.  JavaScript objects used as integer-keyed count / record
tables become association lists with ascending keys; `null`-able parameters
become `Option`.  Where the source consults a field of `metadata` with a
truthiness test (`if (gridSize)`), the model tests `Option.isSome` together
with non-zeroness for numbers, matching JavaScript truthiness on the values
the engine receives.
-/

inductive Difficulty
  | easy
  | medium
  | hard
  | adaptive
deriving DecidableEq, Repr

inductive Personality
  | balanced
  | analytical
  | reactive
  | consistent
  | aggressive
deriving DecidableEq, Repr

structure PersonalityTraits where
  patternRecognitionBonus : ℚ
  riskTaking : ℚ
  adaptationSpeed : ℚ
  consistencyFactor : ℚ
  specialization : ℚ
deriving DecidableEq, Repr

/-- `_getPersonalityTraits`. -/
def getPersonalityTraits : Personality → PersonalityTraits
  | .analytical =>
    { patternRecognitionBonus := 0.2, riskTaking := 0, adaptationSpeed := -0.1,
      consistencyFactor := 0, specialization := 0.3 }
  | .reactive =>
    { patternRecognitionBonus := 0, riskTaking := 0.1, adaptationSpeed := 0.3,
      consistencyFactor := -0.2, specialization := 0 }
  | .consistent =>
    { patternRecognitionBonus := 0, riskTaking := -0.2, adaptationSpeed := -0.2,
      consistencyFactor := 0.3, specialization := 0 }
  | .aggressive =>
    { patternRecognitionBonus := 0, riskTaking := 0.3, adaptationSpeed := 0.2,
      consistencyFactor := -0.3, specialization := 0 }
  | .balanced =>
    { patternRecognitionBonus := 0, riskTaking := 0, adaptationSpeed := 0,
      consistencyFactor := 0, specialization := 0 }

/-- `_getBaseAccuracyForDifficulty` (the `default` arm coincides with
`medium`). -/
def getBaseAccuracyForDifficulty : Difficulty → ℚ
  | .easy => 0.5
  | .medium => 0.7
  | .hard => 0.9
  | .adaptive => 0.6

/-- `_getLearningRateForDifficulty`. -/
def getLearningRateForDifficulty : Difficulty → ℚ
  | .easy => 0.01
  | .medium => 0.05
  | .hard => 0.1
  | .adaptive => 0.08

/-- One entry of `playerPerformanceByGridSize` / `...ByPatternLength`. -/
structure PerfEntry where
  correct : Nat
  total : Nat
  rate : ℚ
deriving DecidableEq, Repr

structure AdaptiveFactors where
  patternRecognition : ℚ
  spatialMemory : ℚ
  sequenceMemory : ℚ
  reactionSpeed : ℚ
  errorRecovery : ℚ
deriving DecidableEq, Repr

/-- One entry of `patternComplexityHistory` ({length, gridSize, level}). -/
structure ComplexityEntry where
  length : Nat
  gridSize : Nat
  level : ℚ
deriving DecidableEq, Repr

/-- The `AIPlayer` instance state. -/
structure AIPlayer where
  difficulty : Difficulty
  personality : Personality
  memoryAccuracy : ℚ
  learningRate : ℚ
  patternHistory : List (List Nat)
  playerMistakePatterns : List (Nat × Nat)
  playerSuccessPatterns : List (Nat × Nat)
  consecutiveCorrect : Nat
  totalAttempts : Nat
  correctAttempts : Nat
  responseTimeHistory : List ℚ
  patternComplexityHistory : List ComplexityEntry
  playerPerformanceByGridSize : List (Nat × PerfEntry)
  playerPerformanceByPatternLength : List (Nat × PerfEntry)
  personalityTraits : PersonalityTraits
  adaptiveFactors : AdaptiveFactors
  learningProgress : ℚ
deriving DecidableEq, Repr

/-- The `AIPlayer` constructor. -/
def mkAIPlayer (difficulty : Difficulty) (personality : Personality) : AIPlayer where
  difficulty := difficulty
  personality := personality
  memoryAccuracy := getBaseAccuracyForDifficulty difficulty
  learningRate := getLearningRateForDifficulty difficulty
  patternHistory := []
  playerMistakePatterns := []
  playerSuccessPatterns := []
  consecutiveCorrect := 0
  totalAttempts := 0
  correctAttempts := 0
  responseTimeHistory := []
  patternComplexityHistory := []
  playerPerformanceByGridSize := []
  playerPerformanceByPatternLength := []
  personalityTraits := getPersonalityTraits personality
  adaptiveFactors :=
    { patternRecognition := 1, spatialMemory := 1, sequenceMemory := 1,
      reactionSpeed := 1, errorRecovery := 1 }
  learningProgress := 0

/-! ### Integer-keyed tables (`this.playerMistakePatterns` and friends) -/

/-- Table lookup (`table[key]`, `undefined` for a missing key). -/
def tableGet {β : Type} : List (Nat × β) → Nat → Option β
  | [], _ => none
  | (a, b) :: rest, k => if k = a then some b else tableGet rest k

/-- Table write (`table[key] = v`), keeping keys in ascending order — the
order `Object.entries` enumerates integer-like keys in. -/
def tableSet {β : Type} (t : List (Nat × β)) (k : Nat) (v : β) : List (Nat × β) :=
  match t with
  | [] => [(k, v)]
  | (a, b) :: rest =>
    if k < a then (k, v) :: (a, b) :: rest
    else if k = a then (k, v) :: rest
    else (a, b) :: tableSet rest k v

/-- `table[tile] = (table[tile] || 0) + 1`. -/
def bumpCount (t : List (Nat × Nat)) (k : Nat) : List (Nat × Nat) :=
  tableSet t k ((tableGet t k).getD 0 + 1)

/-! ### Pattern classifiers -/

/-- The number of consecutive index pairs differing by exactly 1
(`pattern[i] + 1 === pattern[i+1] || pattern[i] - 1 === pattern[i+1]`). -/
def sequentialCount : List Nat → Nat
  | a :: b :: rest => (if a + 1 = b ∨ b + 1 = a then 1 else 0) + sequentialCount (b :: rest)
  | _ => 0

/-- `_isSequentialPattern`: at least half of the transitions are sequential
(the comparison `sequentialCount >= (pattern.length - 1) / 2` is on exact
JavaScript numbers, hence the rational form with integer subtraction). -/
def isSequentialPattern (pattern : List Nat) : Bool :=
  (sequentialCount pattern : ℚ) ≥ (((pattern.length : Int) : ℚ) - 1) / 2

/-- Sum of pairwise absolute index differences. -/
def pairDistSum : List Nat → Nat
  | [] => 0
  | a :: rest => (rest.map (fun b => max a b - min a b)).sum + pairDistSum rest

/-- The number of pairs compared. -/
def pairCount : List Nat → Nat
  | [] => 0
  | _ :: rest => rest.length + pairCount rest

/-- `_isClusteredPattern`: average pairwise index distance below 5.  For
patterns of length ≤ 1 the source divides 0 by 0, yielding `NaN`, and
`NaN < 5` is false. -/
def isClusteredPattern (pattern : List Nat) : Bool :=
  if pairCount pattern = 0 then false
  else (pairDistSum pattern : ℚ) / (pairCount pattern : ℚ) < 5

/-- `_calculateAverageResponseTime`. -/
def calculateAverageResponseTime (s : AIPlayer) : ℚ :=
  if s.responseTimeHistory.isEmpty then 2000
  else s.responseTimeHistory.sum / (s.responseTimeHistory.length : ℚ)

/-! ### Outcome recording -/

/-- `_recordPlayerMistake`: count missed and spurious tiles, then raise the
sequence/spatial memory factors (cap 1.5) when the pattern of length > 2 is
classified sequential/clustered.  The `responseTime` argument of the source is
unused. -/
def recordPlayerMistake (s : AIPlayer) (pattern playerAttempt : List Nat) : AIPlayer :=
  let missedTiles := pattern.filter (fun tile => tile ∉ playerAttempt)
  let incorrectTiles := playerAttempt.filter (fun tile => tile ∉ pattern)
  let s1 := { s with
    playerMistakePatterns :=
      (missedTiles ++ incorrectTiles).foldl bumpCount s.playerMistakePatterns }
  if pattern.length > 2 then
    let s2 :=
      if isSequentialPattern pattern then
        { s1 with adaptiveFactors := { s1.adaptiveFactors with
            sequenceMemory := min 1.5 (s1.adaptiveFactors.sequenceMemory + 0.05) } }
      else s1
    if isClusteredPattern pattern then
      { s2 with adaptiveFactors := { s2.adaptiveFactors with
          spatialMemory := min 1.5 (s2.adaptiveFactors.spatialMemory + 0.05) } }
    else s2
  else s1

/-- `_recordPlayerSuccess`: count the pattern's tiles as successes; if a
response time is supplied and beats 80% of the averaged history, raise the
reaction-speed factor (cap 1.5). -/
def recordPlayerSuccess (s : AIPlayer) (pattern : List Nat) (responseTime : Option ℚ) :
    AIPlayer :=
  let s1 := { s with
    playerSuccessPatterns := pattern.foldl bumpCount s.playerSuccessPatterns }
  match responseTime with
  | none => s1
  | some rt =>
    if rt < calculateAverageResponseTime s1 * 0.8 then
      { s1 with adaptiveFactors := { s1.adaptiveFactors with
          reactionSpeed := min 1.5 (s1.adaptiveFactors.reactionSpeed + 0.05) } }
    else s1

/-- `_updateAdaptiveFactors`.  On success, bump sequence/spatial memory for
sequential/clustered patterns (cap 2, scaled by the specialization trait) and
pattern recognition (cap 2); on failure, bump error recovery (cap 2) and decay
every other factor (floor 0.5). -/
def updateAdaptiveFactors (s : AIPlayer) (success : Bool) (pattern : Option (List Nat)) :
    AIPlayer :=
  let specializationFactor := s.personalityTraits.specialization
  if success then
    let s1 :=
      match pattern with
      | some p =>
        if isSequentialPattern p then
          { s with adaptiveFactors := { s.adaptiveFactors with
              sequenceMemory :=
                min 2 (s.adaptiveFactors.sequenceMemory +
                  0.02 * (1 + specializationFactor)) } }
        else s
      | none => s
    let s2 :=
      match pattern with
      | some p =>
        if isClusteredPattern p then
          { s1 with adaptiveFactors := { s1.adaptiveFactors with
              spatialMemory :=
                min 2 (s1.adaptiveFactors.spatialMemory +
                  0.02 * (1 + specializationFactor)) } }
        else s1
      | none => s1
    { s2 with adaptiveFactors := { s2.adaptiveFactors with
        patternRecognition := min 2 (s2.adaptiveFactors.patternRecognition + 0.01) } }
  else
    let s1 := { s with adaptiveFactors := { s.adaptiveFactors with
        errorRecovery := min 2 (s.adaptiveFactors.errorRecovery + 0.05) } }
    { s1 with
      adaptiveFactors :=
        { patternRecognition := max 0.5 (s1.adaptiveFactors.patternRecognition - 0.01)
          spatialMemory := max 0.5 (s1.adaptiveFactors.spatialMemory - 0.01)
          sequenceMemory := max 0.5 (s1.adaptiveFactors.sequenceMemory - 0.01)
          reactionSpeed := max 0.5 (s1.adaptiveFactors.reactionSpeed - 0.01)
          errorRecovery := s1.adaptiveFactors.errorRecovery } }

/-- A hit/miss update of one performance table entry, creating the entry at
`{correct: 0, total: 0, rate: 0}` first if absent, and recomputing
`rate = correct / total`. -/
def perfUpdate (t : List (Nat × PerfEntry)) (k : Nat) (hit : Bool) : List (Nat × PerfEntry) :=
  let e := (tableGet t k).getD { correct := 0, total := 0, rate := 0 }
  let correct := if hit then e.correct + 1 else e.correct
  let total := e.total + 1
  tableSet t k { correct := correct, total := total, rate := (correct : ℚ) / (total : ℚ) }

/-- The per-grid-size performance update of `recordResult` (skipped when the
metadata has no truthy `gridSize`). -/
def recordGridPerf (s : AIPlayer) (gridSize : Option Nat) (hit : Bool) : AIPlayer :=
  match gridSize with
  | some g =>
    if g = 0 then s
    else { s with
      playerPerformanceByGridSize := perfUpdate s.playerPerformanceByGridSize g hit }
  | none => s

/-- The per-pattern-length performance update of `recordResult` (skipped when
no pattern was passed). -/
def recordLenPerf (s : AIPlayer) (pattern : Option (List Nat)) (hit : Bool) : AIPlayer :=
  match pattern with
  | some p =>
    { s with
      playerPerformanceByPatternLength :=
        perfUpdate s.playerPerformanceByPatternLength p.length hit }
  | none => s

/-- The adaptive-tier step of `recordResult` on success: raise the accuracy by
`0.01 × consecutiveCorrect × (1 + adaptationSpeed)` (the consecutive counter
has already been incremented at this point), cap 0.95, then update the
adaptive factors. -/
def adaptiveSuccessUpdate (s : AIPlayer) (pattern : Option (List Nat)) : AIPlayer :=
  if s.difficulty = Difficulty.adaptive then
    updateAdaptiveFactors
      { s with
        memoryAccuracy :=
          min 0.95 (s.memoryAccuracy +
            0.01 * (s.consecutiveCorrect : ℚ) * (1 + s.personalityTraits.adaptationSpeed)) }
      true pattern
  else s

/-- The adaptive-tier step of `recordResult` on failure: lower the accuracy by
`0.02 × (1 + adaptationSpeed)`, floor 0.3, then update the adaptive
factors. -/
def adaptiveFailureUpdate (s : AIPlayer) (pattern : Option (List Nat)) : AIPlayer :=
  if s.difficulty = Difficulty.adaptive then
    updateAdaptiveFactors
      { s with
        memoryAccuracy :=
          max 0.3 (s.memoryAccuracy - 0.02 * (1 + s.personalityTraits.adaptationSpeed)) }
      false pattern
  else s

/-- `recordResult(isCorrect, pattern, playerAttempt, metadata)`.  The two
used metadata fields are passed separately; `none` stands for an absent field
(and `some 0` for `gridSize` is falsy, as in the source's `if (gridSize)`).
The source's `metadata.level` is destructured but never used. -/
def recordResult (s : AIPlayer) (isCorrect : Bool) (pattern playerAttempt : Option (List Nat))
    (gridSize : Option Nat) (responseTime : Option ℚ) : AIPlayer :=
  let s0 := { s with totalAttempts := s.totalAttempts + 1 }
  if isCorrect then
    let s1 := { s0 with
      correctAttempts := s0.correctAttempts + 1
      consecutiveCorrect := s0.consecutiveCorrect + 1 }
    let s2 :=
      match pattern with
      | some p => recordPlayerSuccess s1 p responseTime
      | none => s1
    adaptiveSuccessUpdate (recordLenPerf (recordGridPerf s2 gridSize true) pattern true) pattern
  else
    let s1 := { s0 with consecutiveCorrect := 0 }
    let s2 :=
      match pattern, playerAttempt with
      | some p, some a => recordPlayerMistake s1 p a
      | _, _ => s1
    adaptiveFailureUpdate (recordLenPerf (recordGridPerf s2 gridSize false) pattern false) pattern

/-! ### Recall simulation (`memorizePattern` / `_generateAttempt`) -/

/-- `_countSimilarPatterns`: history entries sharing at least half their tiles
with the pattern.  The source skips the just-pushed pattern by object
identity, so the scan effectively ranges over the history as it was before
the push; earlier value-equal patterns are distinct objects and are counted. -/
def countSimilarPatterns (history : List (List Nat)) (pattern : List Nat) : Nat :=
  history.countP (fun h =>
    ((h.filter (fun tile => tile ∈ pattern)).length : ℚ) ≥ (pattern.length : ℚ) / 2)

/-- The learning bonus of step 2 of the effective-accuracy computation (also
accumulated into `learningProgress`). -/
def learningBonusOf (s : AIPlayer) (pattern : List Nat) : ℚ :=
  min 0.2 ((countSimilarPatterns s.patternHistory pattern : ℚ) * s.learningRate)

/-- The layered effective-accuracy computation of `memorizePattern`.  The
grid-size / pattern-length transfer steps of the source (lines 199–216)
compare the performance-table record object itself against `0.7`; in
JavaScript that comparison is `NaN`-false, so they never contribute and do not
appear here. -/
def effectiveAccuracy (s : AIPlayer) (pattern : List Nat) (level : ℚ) (riskDraw : ℚ) : ℚ :=
  let a1 := s.memoryAccuracy - min 0.3 ((level - 1) * 0.02)
  let a2 := a1 + learningBonusOf s pattern
  let a3 := a2 + s.personalityTraits.patternRecognitionBonus * s.adaptiveFactors.patternRecognition
  let consistencyEffect := s.personalityTraits.consistencyFactor * 0.1
  let a4 :=
    if consistencyEffect > 0 then
      s.memoryAccuracy + (a3 - s.memoryAccuracy) * (1 - consistencyEffect)
    else a3
  let riskEffect := s.personalityTraits.riskTaking * 0.2
  let a5 := if riskEffect ≠ 0 then a4 + (riskDraw - 0.5) * riskEffect else a4
  max 0.1 (min 0.95 a5)

/-- Oracle for one `memorizePattern` call: the risk-jitter draw, the per-tile
retention draws, the rejection-sampling draws of the random fill (tile and
30%/70% coin), and the final shuffle's draws. -/
structure RecallOracle where
  risk : ℚ
  keep : Nat → ℚ
  fillTile : Nat → ℚ
  fillCoin : Nat → ℚ
  shuffle : Nat → ℚ

/-- The retention pass of `_generateAttempt`: keep each pattern tile with
probability `accuracy`. -/
def keepPhase (accuracy : ℚ) (keep : Nat → ℚ) : List Nat → Nat → List Nat
  | [], _ => []
  | t :: ts, i =>
    if keep i < accuracy then t :: keepPhase accuracy keep ts (i + 1)
    else keepPhase accuracy keep ts (i + 1)

/-- The fill pass of `_generateAttempt`: draw random tiles, rejecting tiles
already in the attempt and (with probability 0.7) tiles of the true pattern,
until the attempt reaches the pattern's length.  `k` numbers the rejection
draws; the fuel bounds how many draws a run may use. -/
def fillLoop (total L : Nat) (pattern : List Nat) (tile coin : Nat → ℚ) :
    Nat → Nat → List Nat → Option (List Nat)
  | 0, _, attempt => if attempt.length ≥ L then some attempt else none
  | f + 1, k, attempt =>
    if attempt.length ≥ L then some attempt
    else
      let t := floorMul (tile k) total
      if t ∈ attempt ∨ (coin k < 0.7 ∧ t ∈ pattern) then
        fillLoop total L pattern tile coin f (k + 1) attempt
      else fillLoop total L pattern tile coin f (k + 1) (attempt ++ [t])

/-- `_generateAttempt`: retention pass, fill pass, then a Fisher–Yates
shuffle of the attempt. -/
def generateAttempt (pattern : List Nat) (gridSize : Nat) (accuracy : ℚ)
    (o : RecallOracle) (fuel : Nat) : Option (List Nat) :=
  let attempt := keepPhase accuracy o.keep pattern 0
  (fillLoop (gridSize * gridSize) pattern.length pattern o.fillTile o.fillCoin fuel 0
    attempt).map (fisherYates o.shuffle)

/-- `memorizePattern`: push the pattern, complexity record and optional
response time into the histories, accumulate the learning bonus, and produce
the AI's attempt at the layered effective accuracy. -/
def memorizePattern (s : AIPlayer) (pattern : List Nat) (gridSize : Nat) (level : ℚ)
    (responseTime : Option ℚ) (o : RecallOracle) (fuel : Nat) :
    AIPlayer × Option (List Nat) :=
  let bonus := learningBonusOf s pattern
  let eff := effectiveAccuracy s pattern level o.risk
  let s1 := { s with
    patternHistory := s.patternHistory ++ [pattern]
    patternComplexityHistory :=
      s.patternComplexityHistory ++ [⟨pattern.length, gridSize, level⟩]
    responseTimeHistory := s.responseTimeHistory ++ responseTime.toList
    learningProgress := s.learningProgress + bonus }
  (s1, generateAttempt pattern gridSize eff o fuel)

/-! ### Difficulty adjustment (`adjustDifficulty`) -/

/-- The success rate stored for a dimension value (0 when the dimension has
not been observed; the source only reads keys it has written). -/
def rateOf (t : List (Nat × PerfEntry)) (k : Nat) : ℚ :=
  ((tableGet t k).getD { correct := 0, total := 0, rate := 0 }).rate

/-!
`_updateAdaptiveFactorsFromTrends`: sort the observed dimension values by
success rate (descending, stable — JavaScript's stable `sort` with comparator
`rate[b] - rate[a]`); when the spread exceeds 0.3 and the weaker dimension
value is the larger one, bump the corresponding memory factor (cap 2).  The
two scans of the source body are the two helper functions below.
-/

/-- The first half of `_updateAdaptiveFactorsFromTrends` (the grid-size
scan). -/
def trendBumpSpatial (s : AIPlayer) : AIPlayer :=
  let gridTable := s.playerPerformanceByGridSize
  if (gridTable.map (fun e => e.1)).length ≥ 2 then
    match List.insertionSort (fun a b => rateOf gridTable b ≤ rateOf gridTable a)
        (gridTable.map (fun e => e.1)) with
    | [] => s
    | best :: rest =>
      let worst := rest.getLastD best
      if rateOf gridTable best - rateOf gridTable worst > 0.3 ∧ worst > best then
        { s with adaptiveFactors := { s.adaptiveFactors with
            spatialMemory := min 2 (s.adaptiveFactors.spatialMemory + 0.05) } }
      else s
  else s

/-- The second half of `_updateAdaptiveFactorsFromTrends` (the pattern-length
scan). -/
def trendBumpSequence (s : AIPlayer) : AIPlayer :=
  let lenTable := s.playerPerformanceByPatternLength
  if (lenTable.map (fun e => e.1)).length ≥ 2 then
    match List.insertionSort (fun a b => rateOf lenTable b ≤ rateOf lenTable a)
        (lenTable.map (fun e => e.1)) with
    | [] => s
    | best :: rest =>
      let worst := rest.getLastD best
      if rateOf lenTable best - rateOf lenTable worst > 0.3 ∧ worst > best then
        { s with adaptiveFactors := { s.adaptiveFactors with
            sequenceMemory := min 2 (s.adaptiveFactors.sequenceMemory + 0.05) } }
      else s
  else s

def updateAdaptiveFactorsFromTrends (s : AIPlayer) : AIPlayer :=
  trendBumpSequence (trendBumpSpatial s)

/-- `adjustDifficulty(playerSuccessRate, playerStats)`: a no-op unless the
tier is adaptive; otherwise sum the four adjustment signals, scale by the
adaptation-speed multiplier, clamp, and run the trend scan.  The
`playerStats` fields are passed positionally (the source's defaults are
supplied by the caller in this model). -/
def adjustDifficulty (s : AIPlayer) (playerSuccessRate : ℚ) (averageResponseTime : ℚ)
    (level : ℚ) (consecutiveCorrect : ℚ) : AIPlayer :=
  if s.difficulty ≠ Difficulty.adaptive then s
  else
    let adaptationMultiplier := 1 + s.personalityTraits.adaptationSpeed
    let acc1 : ℚ :=
      if playerSuccessRate > 0.8 then 0.05
      else if playerSuccessRate < 0.4 then -0.05 else 0
    let lr1 : ℚ :=
      if playerSuccessRate > 0.8 then 0.01
      else if playerSuccessRate < 0.4 then -0.01 else 0
    let aiResponseTime := calculateAverageResponseTime s
    let acc2 :=
      if averageResponseTime < aiResponseTime * 0.7 then acc1 + 0.03
      else if averageResponseTime > aiResponseTime * 1.3 then acc1 - 0.02
      else acc1
    let s1 :=
      if averageResponseTime < aiResponseTime * 0.7 then
        { s with adaptiveFactors := { s.adaptiveFactors with
            reactionSpeed := min 2 (s.adaptiveFactors.reactionSpeed + 0.05) } }
      else s
    let acc3 := if level > 5 then acc2 + 0.01 * min 10 (level - 5) else acc2
    let lr2 := if level > 5 then lr1 + 0.002 * min 10 (level - 5) else lr1
    let acc4 :=
      if consecutiveCorrect > 3 then acc3 + 0.01 * min 5 (consecutiveCorrect - 3)
      else acc3
    let s2 := { s1 with
      memoryAccuracy := max 0.3 (min 0.95 (s1.memoryAccuracy + acc4 * adaptationMultiplier))
      learningRate := max 0.01 (min 0.2 (s1.learningRate + lr2 * adaptationMultiplier)) }
    updateAdaptiveFactorsFromTrends s2

/-! ### Challenge composition (`generateChallengePattern`) -/

/-- The recognised values of `options.patternType` (any other string behaves
like `other`: no branch matches and the pattern is filled randomly). -/
inductive ChallengeType
  | adaptive
  | sequential
  | shape
  | other
deriving DecidableEq, Repr

/-- Oracle for one `generateChallengePattern` call. -/
structure ChallengeOracle where
  use : ℚ
  seqStart : ℚ
  centerRow : ℚ
  centerCol : ℚ
  dirShuffle : Nat → ℚ
  fill : Nat → ℚ
  swapA : Nat → ℚ
  swapB : Nat → ℚ

/-- The mistake table's tiles sorted by frequency, most-mistaken first
(`Object.entries(...).sort((a, b) => b[1] - a[1])`, a stable descending
sort over the ascending-key enumeration). -/
def sortedMistakeTiles (s : AIPlayer) : List Nat :=
  (List.insertionSort (fun a b : Nat × Nat => b.2 ≤ a.2) s.playerMistakePatterns).map
    (fun e => e.1)

/-- The seeding loop: push the sorted mistaken tiles that fit on the grid
until the pattern reaches the requested length. -/
def seedLoop (L total : Nat) : List Nat → List Nat → List Nat
  | [], acc => acc
  | t :: ts, acc =>
    if acc.length ≥ L then acc
    else seedLoop L total ts (if t < total then acc ++ [t] else acc)

/-- Adding the generated `additionalTiles` to the pattern, skipping
duplicates and off-grid tiles, stopping at the requested length. -/
def addLoop (L total : Nat) : List Nat → List Nat → List Nat
  | [], acc => acc
  | t :: ts, acc =>
    if acc.length ≥ L then acc
    else if t ∉ acc ∧ t < total then addLoop L total ts (acc ++ [t])
    else addLoop L total ts acc

/-- The eight cluster directions around a centre tile. -/
def challengeDirections (gridSize : Nat) : List Int :=
  [-(gridSize : Int), -(gridSize : Int) + 1, 1, (gridSize : Int) + 1,
   (gridSize : Int), (gridSize : Int) - 1, -1, -(gridSize : Int) - 1]

/-- The cluster loop: try each (shuffled) direction; push valid unvisited
neighbours of the centre, and stop once the accumulated list has reached the
cap.  Note the source checks the cap only after a successful push, so the
list can exceed a cap it already met on entry by one tile. -/
def clusterLoop (total cap : Nat) (center : Nat) : List Int → List Nat → List Nat
  | [], acc => acc
  | d :: ds, acc =>
    let newTile : Int := (center : Int) + d
    if 0 ≤ newTile ∧ newTile < (total : Int) ∧ newTile.toNat ∉ acc then
      let acc2 := acc ++ [newTile.toNat]
      if acc2.length ≥ cap then acc2 else clusterLoop total cap center ds acc2
    else clusterLoop total cap center ds acc

/-- The final random-fill loop (`while (pattern.length < patternLength)`),
with fuel bounding the number of draws of a run. -/
def challengeFill (total L : Nat) (draws : Nat → ℚ) :
    Nat → Nat → List Nat → Option (List Nat)
  | 0, _, acc => if acc.length ≥ L then some acc else none
  | f + 1, k, acc =>
    if acc.length ≥ L then some acc
    else
      let t := floorMul (draws k) total
      if t ∉ acc then challengeFill total L draws f (k + 1) (acc ++ [t])
      else challengeFill total L draws f (k + 1) acc

/-- The difficulty-based pairwise swaps. -/
def doSwaps (L : Nat) (a b : Nat → ℚ) : Nat → Nat → List Nat → List Nat
  | 0, _, p => p
  | c + 1, i, p =>
    let idx1 := floorMul (a i) L
    let idx2 := floorMul (b i) L
    doSwaps L a b c (i + 1) (if idx1 ≠ idx2 then listSwap p idx1 idx2 else p)

/-- `Math.floor((difficulty - 0.5) * 4)` swaps when `difficulty > 0.5` and the
pattern is longer than 3. -/
def difficultySwaps (L : Nat) (difficulty : ℚ) (a b : Nat → ℚ) (p : List Nat) : List Nat :=
  if difficulty > 0.5 ∧ L > 3 then
    doSwaps L a b (⌊(difficulty - 0.5) * 4⌋).toNat 0 p
  else p

/-- The pattern `generateChallengePattern` accumulates before its final
random-fill loop: the mistake-seeded / weakness-directed tiles of whichever
branch applies. -/
def challengeBase (s : AIPlayer) (patternLength gridSize : Nat)
    (patternType : ChallengeType) (o : ChallengeOracle) : List Nat :=
  let totalTiles := gridSize * gridSize
  let riskFactor := s.personalityTraits.riskTaking
  let usePlayerMistakes := o.use < 0.7 + riskFactor
  if patternType = ChallengeType.adaptive ∧ usePlayerMistakes then
      let seeded :=
        if s.playerMistakePatterns.isEmpty then []
        else seedLoop patternLength totalTiles (sortedMistakeTiles s) []
      if seeded.length < patternLength then
        let useSequential :=
          s.adaptiveFactors.sequenceMemory > s.adaptiveFactors.spatialMemory
        let remainingLength := patternLength - seeded.length
        let additionalTiles :=
          if useSequential then
            let start := floorMul o.seqStart (totalTiles - remainingLength)
            (List.range remainingLength).map (fun i => start + i)
          else
            let center :=
              floorMul o.centerRow gridSize * gridSize + floorMul o.centerCol gridSize
            clusterLoop totalTiles remainingLength center
              (fisherYates o.dirShuffle (challengeDirections gridSize)) [center]
        addLoop patternLength totalTiles additionalTiles seeded
      else seeded
    else if patternType = ChallengeType.sequential ∨
        (patternType = ChallengeType.adaptive ∧ s.adaptiveFactors.sequenceMemory > 1.2) then
      let start := floorMul o.seqStart (totalTiles - patternLength)
      (List.range patternLength).map (fun i => start + i)
    else if patternType = ChallengeType.shape ∨
        (patternType = ChallengeType.adaptive ∧ s.adaptiveFactors.spatialMemory > 1.2) then
      let center :=
        floorMul o.centerRow gridSize * gridSize + floorMul o.centerCol gridSize
      clusterLoop totalTiles patternLength center
        (fisherYates o.dirShuffle (challengeDirections gridSize)) [center]
    else []

/-- `generateChallengePattern(patternLength, gridSize, options)`.  The
default options are `patternType = adaptive`, `difficulty = 0.5`. -/
def generateChallengePattern (s : AIPlayer) (patternLength gridSize : Nat)
    (patternType : ChallengeType) (difficulty : ℚ) (o : ChallengeOracle) (fuel : Nat) :
    Option (List Nat) :=
  (challengeFill (gridSize * gridSize) patternLength o.fill fuel 0
    (challengeBase s patternLength gridSize patternType o)).map
    (difficultySwaps patternLength difficulty o.swapA o.swapB)

/-!
## Engine state machine

Every mutating engine operation as a step relation, for the reachable-state
invariants.  `generateChallengePattern` and `getStats` read the state without
mutating it, so they induce no step.
-/

inductive EngineStep : AIPlayer → AIPlayer → Prop
  | memorize (s : AIPlayer) (pattern : List Nat) (gridSize : Nat) (level : ℚ)
      (responseTime : Option ℚ) (o : RecallOracle) (fuel : Nat) :
      EngineStep s (memorizePattern s pattern gridSize level responseTime o fuel).1
  | record (s : AIPlayer) (isCorrect : Bool) (pattern playerAttempt : Option (List Nat))
      (gridSize : Option Nat) (responseTime : Option ℚ) :
      EngineStep s (recordResult s isCorrect pattern playerAttempt gridSize responseTime)
  | adjust (s : AIPlayer) (playerSuccessRate averageResponseTime level consecutiveCorrect : ℚ) :
      EngineStep s (adjustDifficulty s playerSuccessRate averageResponseTime level
        consecutiveCorrect)

/-- States reachable from a freshly constructed opponent by engine calls. -/
def ReachableFrom (d : Difficulty) (p : Personality) (s : AIPlayer) : Prop :=
  Relation.ReflTransGen EngineStep (mkAIPlayer d p) s

/-- All five adaptive factors within `[0.5, 2]`. -/
def FactorsInRange (f : AdaptiveFactors) : Prop :=
  (0.5 ≤ f.patternRecognition ∧ f.patternRecognition ≤ 2) ∧
  (0.5 ≤ f.spatialMemory ∧ f.spatialMemory ≤ 2) ∧
  (0.5 ≤ f.sequenceMemory ∧ f.sequenceMemory ≤ 2) ∧
  (0.5 ≤ f.reactionSpeed ∧ f.reactionSpeed ≤ 2) ∧
  (0.5 ≤ f.errorRecovery ∧ f.errorRecovery ≤ 2)

/-- The engine invariant: accuracy and factors clamped, and the trait record
the one the constructor computed for the personality. -/
def EngineInv (s : AIPlayer) : Prop :=
  0.3 ≤ s.memoryAccuracy ∧ s.memoryAccuracy ≤ 0.95 ∧
  FactorsInRange s.adaptiveFactors ∧
  s.personalityTraits = getPersonalityTraits s.personality

theorem engineInv_mk (d : Difficulty) (p : Personality) : EngineInv (mkAIPlayer d p) := by
  refine ⟨?_, ?_, ?_, rfl⟩ <;> cases d <;>
    norm_num [mkAIPlayer, getBaseAccuracyForDifficulty, FactorsInRange]

theorem adaptationSpeed_gt_neg_one (p : Personality) :
    -1 < (getPersonalityTraits p).adaptationSpeed := by
  cases p <;> norm_num [getPersonalityTraits]

theorem specialization_nonneg (p : Personality) :
    0 ≤ (getPersonalityTraits p).specialization := by
  cases p <;> norm_num [getPersonalityTraits]

/-- A clamped bump `min cap (x + δ)` stays in `[0.5, 2]`. -/
theorem bump_mem {x δ cap : ℚ} (hx : 0.5 ≤ x) (hδ : 0 ≤ δ) (hcap1 : 0.5 ≤ cap)
    (hcap2 : cap ≤ 2) : 0.5 ≤ min cap (x + δ) ∧ min cap (x + δ) ≤ 2 :=
  ⟨le_min hcap1 (by linarith), le_trans (min_le_left _ _) hcap2⟩

/-- A clamped decay `max 0.5 (x − 0.01)` stays in `[0.5, 2]`. -/
theorem decay_mem {x : ℚ} (hx2 : x ≤ 2) :
    0.5 ≤ max 0.5 (x - 0.01) ∧ max 0.5 (x - 0.01) ≤ 2 :=
  ⟨le_max_left _ _, max_le (by norm_num) (by linarith)⟩

/-- Shape of `_recordPlayerMistake`: it touches only the mistake table and
the sequence/spatial memory factors (clamped bumps, applied exactly when the
pattern of length > 2 is classified sequential/clustered). -/
theorem recordPlayerMistake_eq (s : AIPlayer) (p a : List Nat) :
    ∃ af, recordPlayerMistake s p a =
      { s with
        playerMistakePatterns :=
          ((p.filter (fun tile => tile ∉ a)) ++ (a.filter (fun tile => tile ∉ p))).foldl
            bumpCount s.playerMistakePatterns
        adaptiveFactors := af } ∧
      af.patternRecognition = s.adaptiveFactors.patternRecognition ∧
      af.reactionSpeed = s.adaptiveFactors.reactionSpeed ∧
      af.errorRecovery = s.adaptiveFactors.errorRecovery ∧
      (af.sequenceMemory = s.adaptiveFactors.sequenceMemory ∨
        af.sequenceMemory = min 1.5 (s.adaptiveFactors.sequenceMemory + 0.05)) ∧
      (af.spatialMemory = s.adaptiveFactors.spatialMemory ∨
        af.spatialMemory = min 1.5 (s.adaptiveFactors.spatialMemory + 0.05)) ∧
      (¬(2 < p.length ∧ isSequentialPattern p = true) →
        af.sequenceMemory = s.adaptiveFactors.sequenceMemory) ∧
      (¬(2 < p.length ∧ isClusteredPattern p = true) →
        af.spatialMemory = s.adaptiveFactors.spatialMemory) := by
  unfold recordPlayerMistake
  split_ifs with h1 h2 h3 h4
  · exact ⟨_, rfl, rfl, rfl, rfl, Or.inr rfl, Or.inr rfl, fun hc => absurd ⟨h1, h2⟩ hc,
      fun hc => absurd ⟨h1, h3⟩ hc⟩
  · exact ⟨_, rfl, rfl, rfl, rfl, Or.inr rfl, Or.inl rfl, fun hc => absurd ⟨h1, h2⟩ hc,
      fun _ => rfl⟩
  · exact ⟨_, rfl, rfl, rfl, rfl, Or.inl rfl, Or.inr rfl, fun _ => rfl,
      fun hc => absurd ⟨h1, h4⟩ hc⟩
  · exact ⟨_, rfl, rfl, rfl, rfl, Or.inl rfl, Or.inl rfl, fun _ => rfl, fun _ => rfl⟩
  · exact ⟨s.adaptiveFactors, rfl, rfl, rfl, rfl, Or.inl rfl, Or.inl rfl, fun _ => rfl,
      fun _ => rfl⟩

/-- Shape of `_recordPlayerSuccess`: it touches only the success table and
(possibly) the reaction-speed factor. -/
theorem recordPlayerSuccess_eq (s : AIPlayer) (p : List Nat) (rt : Option ℚ) :
    ∃ af, recordPlayerSuccess s p rt =
      { s with
        playerSuccessPatterns := p.foldl bumpCount s.playerSuccessPatterns
        adaptiveFactors := af } ∧
      af.patternRecognition = s.adaptiveFactors.patternRecognition ∧
      af.spatialMemory = s.adaptiveFactors.spatialMemory ∧
      af.sequenceMemory = s.adaptiveFactors.sequenceMemory ∧
      af.errorRecovery = s.adaptiveFactors.errorRecovery ∧
      (af.reactionSpeed = s.adaptiveFactors.reactionSpeed ∨
        af.reactionSpeed = min 1.5 (s.adaptiveFactors.reactionSpeed + 0.05)) := by
  unfold recordPlayerSuccess
  cases rt with
  | none => exact ⟨s.adaptiveFactors, rfl, rfl, rfl, rfl, rfl, Or.inl rfl⟩
  | some v =>
    dsimp only
    split_ifs with h1
    · exact ⟨_, rfl, rfl, rfl, rfl, rfl, Or.inr rfl⟩
    · exact ⟨s.adaptiveFactors, rfl, rfl, rfl, rfl, rfl, Or.inl rfl⟩

/-- Shape of `_updateAdaptiveFactors` on success. -/
theorem updateAdaptiveFactors_true_eq (s : AIPlayer) (p : Option (List Nat)) :
    ∃ af, updateAdaptiveFactors s true p = { s with adaptiveFactors := af } ∧
      af.patternRecognition = min 2 (s.adaptiveFactors.patternRecognition + 0.01) ∧
      af.reactionSpeed = s.adaptiveFactors.reactionSpeed ∧
      af.errorRecovery = s.adaptiveFactors.errorRecovery ∧
      (af.sequenceMemory = s.adaptiveFactors.sequenceMemory ∨
        af.sequenceMemory = min 2 (s.adaptiveFactors.sequenceMemory +
          0.02 * (1 + s.personalityTraits.specialization))) ∧
      (af.spatialMemory = s.adaptiveFactors.spatialMemory ∨
        af.spatialMemory = min 2 (s.adaptiveFactors.spatialMemory +
          0.02 * (1 + s.personalityTraits.specialization))) := by
  unfold updateAdaptiveFactors
  rw [if_pos rfl]
  cases p with
  | none => exact ⟨_, rfl, rfl, rfl, rfl, Or.inl rfl, Or.inl rfl⟩
  | some pp =>
    dsimp only
    split_ifs <;>
      first
      | exact ⟨_, rfl, rfl, rfl, rfl, Or.inr rfl, Or.inr rfl⟩
      | exact ⟨_, rfl, rfl, rfl, rfl, Or.inr rfl, Or.inl rfl⟩
      | exact ⟨_, rfl, rfl, rfl, rfl, Or.inl rfl, Or.inr rfl⟩
      | exact ⟨_, rfl, rfl, rfl, rfl, Or.inl rfl, Or.inl rfl⟩

/-- `_updateAdaptiveFactors` on failure, in closed form: error recovery is
bumped (cap 2) and every other factor decays (floor 0.5). -/
theorem updateAdaptiveFactors_false_eq (s : AIPlayer) (p : Option (List Nat)) :
    updateAdaptiveFactors s false p = { s with
      adaptiveFactors :=
        { patternRecognition := max 0.5 (s.adaptiveFactors.patternRecognition - 0.01)
          spatialMemory := max 0.5 (s.adaptiveFactors.spatialMemory - 0.01)
          sequenceMemory := max 0.5 (s.adaptiveFactors.sequenceMemory - 0.01)
          reactionSpeed := max 0.5 (s.adaptiveFactors.reactionSpeed - 0.01)
          errorRecovery := min 2 (s.adaptiveFactors.errorRecovery + 0.05) } } := rfl

/-- Shape of the grid-size trend scan: only the spatial-memory factor can
change, by a clamped bump. -/
theorem trendBumpSpatial_eq (s : AIPlayer) :
    ∃ af, trendBumpSpatial s = { s with adaptiveFactors := af } ∧
      af.patternRecognition = s.adaptiveFactors.patternRecognition ∧
      af.reactionSpeed = s.adaptiveFactors.reactionSpeed ∧
      af.errorRecovery = s.adaptiveFactors.errorRecovery ∧
      af.sequenceMemory = s.adaptiveFactors.sequenceMemory ∧
      (af.spatialMemory = s.adaptiveFactors.spatialMemory ∨
        af.spatialMemory = min 2 (s.adaptiveFactors.spatialMemory + 0.05)) := by
  unfold trendBumpSpatial
  dsimp only
  split_ifs with h1
  · split
    · exact ⟨s.adaptiveFactors, rfl, rfl, rfl, rfl, rfl, Or.inl rfl⟩
    · split_ifs with h2
      · exact ⟨_, rfl, rfl, rfl, rfl, rfl, Or.inr rfl⟩
      · exact ⟨s.adaptiveFactors, rfl, rfl, rfl, rfl, rfl, Or.inl rfl⟩
  · exact ⟨s.adaptiveFactors, rfl, rfl, rfl, rfl, rfl, Or.inl rfl⟩

/-- Shape of the pattern-length trend scan: only the sequence-memory factor
can change, by a clamped bump. -/
theorem trendBumpSequence_eq (s : AIPlayer) :
    ∃ af, trendBumpSequence s = { s with adaptiveFactors := af } ∧
      af.patternRecognition = s.adaptiveFactors.patternRecognition ∧
      af.reactionSpeed = s.adaptiveFactors.reactionSpeed ∧
      af.errorRecovery = s.adaptiveFactors.errorRecovery ∧
      af.spatialMemory = s.adaptiveFactors.spatialMemory ∧
      (af.sequenceMemory = s.adaptiveFactors.sequenceMemory ∨
        af.sequenceMemory = min 2 (s.adaptiveFactors.sequenceMemory + 0.05)) := by
  unfold trendBumpSequence
  dsimp only
  split_ifs with h1
  · split
    · exact ⟨s.adaptiveFactors, rfl, rfl, rfl, rfl, rfl, Or.inl rfl⟩
    · split_ifs with h2
      · exact ⟨_, rfl, rfl, rfl, rfl, rfl, Or.inr rfl⟩
      · exact ⟨s.adaptiveFactors, rfl, rfl, rfl, rfl, rfl, Or.inl rfl⟩
  · exact ⟨s.adaptiveFactors, rfl, rfl, rfl, rfl, rfl, Or.inl rfl⟩

/-- A factor equal to an old in-range value, or to a clamped bump of it,
stays in `[0.5, 2]`. -/
theorem range_of_eq_or_bump {x y cap δ : ℚ} (h : y = x ∨ y = min cap (x + δ))
    (hx1 : 0.5 ≤ x) (hx2 : x ≤ 2) (hδ : 0 ≤ δ) (hcap1 : 0.5 ≤ cap) (hcap2 : cap ≤ 2) :
    0.5 ≤ y ∧ y ≤ 2 := by
  rcases h with h | h
  · subst h
    exact ⟨hx1, hx2⟩
  · subst h
    exact bump_mem hx1 hδ hcap1 hcap2

/-- Shape of the grid-size performance update. -/
theorem recordGridPerf_eq (t : AIPlayer) (g : Option Nat) (hit : Bool) :
    ∃ pg, recordGridPerf t g hit = { t with playerPerformanceByGridSize := pg } := by
  unfold recordGridPerf
  rcases g with _ | gg
  · exact ⟨t.playerPerformanceByGridSize, rfl⟩
  · dsimp only
    split_ifs with h
    · exact ⟨t.playerPerformanceByGridSize, rfl⟩
    · exact ⟨_, rfl⟩

/-- Shape of the pattern-length performance update. -/
theorem recordLenPerf_eq (t : AIPlayer) (p : Option (List Nat)) (hit : Bool) :
    ∃ pl, recordLenPerf t p hit = { t with playerPerformanceByPatternLength := pl } := by
  unfold recordLenPerf
  rcases p with _ | pp
  · exact ⟨t.playerPerformanceByPatternLength, rfl⟩
  · exact ⟨_, rfl⟩

/-- Shape of the adaptive success step: the accuracy is raised by
`0.01 × consecutiveCorrect × (1 + adaptationSpeed)` and capped at 0.95 on the
adaptive tier, everything stays clamped, and only accuracy and factors
change. -/
theorem adaptiveSuccessUpdate_eq (t : AIPlayer) (pat : Option (List Nat)) :
    ∃ acc af, adaptiveSuccessUpdate t pat =
      { t with memoryAccuracy := acc, adaptiveFactors := af } ∧
      (t.difficulty = Difficulty.adaptive →
        acc = min 0.95 (t.memoryAccuracy +
          0.01 * (t.consecutiveCorrect : ℚ) * (1 + t.personalityTraits.adaptationSpeed))) ∧
      (t.difficulty ≠ Difficulty.adaptive → acc = t.memoryAccuracy ∧ af = t.adaptiveFactors) ∧
      (0.3 ≤ t.memoryAccuracy → t.memoryAccuracy ≤ 0.95 →
        0 ≤ 0.01 * (t.consecutiveCorrect : ℚ) * (1 + t.personalityTraits.adaptationSpeed) →
        0.3 ≤ acc ∧ acc ≤ 0.95) ∧
      (0 ≤ t.personalityTraits.specialization → FactorsInRange t.adaptiveFactors →
        FactorsInRange af) := by
  unfold adaptiveSuccessUpdate
  split_ifs with h
  · obtain ⟨af, e, hpr, hrs, her, hsq, hsp⟩ :=
      updateAdaptiveFactors_true_eq
        { t with
          memoryAccuracy :=
            min 0.95 (t.memoryAccuracy +
              0.01 * (t.consecutiveCorrect : ℚ) * (1 + t.personalityTraits.adaptationSpeed)) }
        pat
    dsimp only at hpr hrs her hsq hsp
    refine ⟨_, af, ?_, fun _ => rfl, fun hc => absurd h hc, ?_, ?_⟩
    · rw [e]
    · intro h1 h2 hδ
      constructor
      · exact le_min (by norm_num) (by linarith)
      · exact le_trans (min_le_left _ _) (le_refl _)
    · intro hspec hf
      obtain ⟨f1, f2, f3, f4, f5⟩ := hf
      have hδ : (0:ℚ) ≤ 0.02 * (1 + t.personalityTraits.specialization) := by linarith
      refine ⟨?_, ?_, ?_, ?_, ?_⟩
      · rw [hpr]
        exact bump_mem f1.1 (by norm_num) (by norm_num) (le_refl 2)
      · exact range_of_eq_or_bump hsp f2.1 f2.2 hδ (by norm_num) (le_refl 2)
      · exact range_of_eq_or_bump hsq f3.1 f3.2 hδ (by norm_num) (le_refl 2)
      · rw [hrs]
        exact f4
      · rw [her]
        exact f5
  · exact ⟨t.memoryAccuracy, t.adaptiveFactors, rfl, fun hc => absurd hc h,
      fun _ => ⟨rfl, rfl⟩, fun h1 h2 _ => ⟨h1, h2⟩, fun _ hf => hf⟩

/-- Shape of the adaptive failure step: on the adaptive tier, accuracy drops
by `0.02 × (1 + adaptationSpeed)` (floor 0.3), error recovery is bumped and
the other four factors decay; otherwise nothing changes. -/
theorem adaptiveFailureUpdate_eq (t : AIPlayer) (pat : Option (List Nat)) :
    ∃ acc af, adaptiveFailureUpdate t pat =
      { t with memoryAccuracy := acc, adaptiveFactors := af } ∧
      (t.difficulty = Difficulty.adaptive →
        acc = max 0.3 (t.memoryAccuracy - 0.02 * (1 + t.personalityTraits.adaptationSpeed)) ∧
        af = { patternRecognition := max 0.5 (t.adaptiveFactors.patternRecognition - 0.01)
               spatialMemory := max 0.5 (t.adaptiveFactors.spatialMemory - 0.01)
               sequenceMemory := max 0.5 (t.adaptiveFactors.sequenceMemory - 0.01)
               reactionSpeed := max 0.5 (t.adaptiveFactors.reactionSpeed - 0.01)
               errorRecovery := min 2 (t.adaptiveFactors.errorRecovery + 0.05) }) ∧
      (t.difficulty ≠ Difficulty.adaptive → acc = t.memoryAccuracy ∧ af = t.adaptiveFactors) ∧
      (0.3 ≤ t.memoryAccuracy → t.memoryAccuracy ≤ 0.95 →
        0 ≤ 0.02 * (1 + t.personalityTraits.adaptationSpeed) →
        0.3 ≤ acc ∧ acc ≤ 0.95) ∧
      (FactorsInRange t.adaptiveFactors → FactorsInRange af) := by
  unfold adaptiveFailureUpdate
  split_ifs with h
  · rw [updateAdaptiveFactors_false_eq]
    dsimp only
    refine ⟨_, _, rfl, fun _ => ⟨rfl, rfl⟩, fun hc => absurd h hc, ?_, ?_⟩
    · intro h3 h95 hδ
      exact ⟨le_max_left _ _, max_le (by norm_num) (by linarith)⟩
    · intro hf
      obtain ⟨f1, f2, f3, f4, f5⟩ := hf
      exact ⟨decay_mem f1.2, decay_mem f2.2, decay_mem f3.2, decay_mem f4.2,
        bump_mem f5.1 (by norm_num) (by norm_num) (le_refl 2)⟩
  · exact ⟨t.memoryAccuracy, t.adaptiveFactors, rfl, fun hc => absurd hc h,
      fun _ => ⟨rfl, rfl⟩, fun h3 h95 _ => ⟨h3, h95⟩, fun hf => hf⟩

/-- The shared tail of the success branch of `recordResult` (performance
updates followed by the adaptive step). -/
theorem successTail_eq (t : AIPlayer) (p : Option (List Nat)) (g : Option Nat) :
    ∃ acc af pg pl,
      adaptiveSuccessUpdate (recordLenPerf (recordGridPerf t g true) p true) p =
        { t with memoryAccuracy := acc, adaptiveFactors := af,
                 playerPerformanceByGridSize := pg,
                 playerPerformanceByPatternLength := pl } ∧
      (t.difficulty = Difficulty.adaptive →
        acc = min 0.95 (t.memoryAccuracy +
          0.01 * (t.consecutiveCorrect : ℚ) * (1 + t.personalityTraits.adaptationSpeed))) ∧
      (0.3 ≤ t.memoryAccuracy → t.memoryAccuracy ≤ 0.95 →
        FactorsInRange t.adaptiveFactors →
        t.personalityTraits = getPersonalityTraits t.personality →
        0.3 ≤ acc ∧ acc ≤ 0.95 ∧ FactorsInRange af) := by
  obtain ⟨pg, e1⟩ := recordGridPerf_eq t g true
  obtain ⟨pl, e2⟩ := recordLenPerf_eq (recordGridPerf t g true) p true
  obtain ⟨acc, af, e3, hAdap, hNot, hBnd, hFR⟩ :=
    adaptiveSuccessUpdate_eq (recordLenPerf (recordGridPerf t g true) p true) p
  rw [e2, e1] at e3 hAdap hBnd hFR
  dsimp only at hAdap hBnd hFR
  refine ⟨acc, af, pg, pl, ?_, hAdap, ?_⟩
  · rw [e2, e1, e3]
  · intro h1 h2 h3 h4
    have has : (-1 : ℚ) < t.personalityTraits.adaptationSpeed := by
      rw [h4]
      exact adaptationSpeed_gt_neg_one t.personality
    have hspec : (0 : ℚ) ≤ t.personalityTraits.specialization := by
      rw [h4]
      exact specialization_nonneg t.personality
    have hδ : (0:ℚ) ≤ 0.01 * (t.consecutiveCorrect : ℚ) *
        (1 + t.personalityTraits.adaptationSpeed) := by
      apply mul_nonneg (mul_nonneg (by norm_num) (Nat.cast_nonneg _))
      linarith
    obtain ⟨b1, b2⟩ := hBnd h1 h2 hδ
    exact ⟨b1, b2, hFR hspec h3⟩

/-- The shared tail of the failure branch of `recordResult`. -/
theorem failureTail_eq (t : AIPlayer) (p : Option (List Nat)) (g : Option Nat) :
    ∃ acc af pg pl,
      adaptiveFailureUpdate (recordLenPerf (recordGridPerf t g false) p false) p =
        { t with memoryAccuracy := acc, adaptiveFactors := af,
                 playerPerformanceByGridSize := pg,
                 playerPerformanceByPatternLength := pl } ∧
      (t.difficulty = Difficulty.adaptive →
        acc = max 0.3 (t.memoryAccuracy - 0.02 * (1 + t.personalityTraits.adaptationSpeed)) ∧
        af = { patternRecognition := max 0.5 (t.adaptiveFactors.patternRecognition - 0.01)
               spatialMemory := max 0.5 (t.adaptiveFactors.spatialMemory - 0.01)
               sequenceMemory := max 0.5 (t.adaptiveFactors.sequenceMemory - 0.01)
               reactionSpeed := max 0.5 (t.adaptiveFactors.reactionSpeed - 0.01)
               errorRecovery := min 2 (t.adaptiveFactors.errorRecovery + 0.05) }) ∧
      (t.difficulty ≠ Difficulty.adaptive → acc = t.memoryAccuracy ∧ af = t.adaptiveFactors) ∧
      (0.3 ≤ t.memoryAccuracy → t.memoryAccuracy ≤ 0.95 →
        FactorsInRange t.adaptiveFactors →
        t.personalityTraits = getPersonalityTraits t.personality →
        0.3 ≤ acc ∧ acc ≤ 0.95 ∧ FactorsInRange af) := by
  obtain ⟨pg, e1⟩ := recordGridPerf_eq t g false
  obtain ⟨pl, e2⟩ := recordLenPerf_eq (recordGridPerf t g false) p false
  obtain ⟨acc, af, e3, hAdap, hNot, hBnd, hFR⟩ :=
    adaptiveFailureUpdate_eq (recordLenPerf (recordGridPerf t g false) p false) p
  rw [e2, e1] at e3 hAdap hNot hBnd hFR
  dsimp only at hAdap hNot hBnd hFR
  refine ⟨acc, af, pg, pl, ?_, hAdap, hNot, ?_⟩
  · rw [e2, e1, e3]
  · intro h1 h2 h3 h4
    have has : (-1 : ℚ) < t.personalityTraits.adaptationSpeed := by
      rw [h4]
      exact adaptationSpeed_gt_neg_one t.personality
    have hδ : (0:ℚ) ≤ 0.02 * (1 + t.personalityTraits.adaptationSpeed) := by linarith
    obtain ⟨b1, b2⟩ := hBnd h1 h2 hδ
    exact ⟨b1, b2, hFR h3⟩

/-- Master shape of `recordResult`: the counters change exactly as documented
(total always +1, correct +1 on success, consecutive incremented on success
and reset on failure), only the statistic tables / accuracy / factors change
besides, and accuracy and factors stay clamped. -/
theorem recordResult_eq (s : AIPlayer) (c : Bool) (p a : Option (List Nat))
    (g : Option Nat) (rt : Option ℚ) :
    ∃ acc af mt st pg pl,
      recordResult s c p a g rt = { s with
        totalAttempts := s.totalAttempts + 1
        correctAttempts := s.correctAttempts + (if c then 1 else 0)
        consecutiveCorrect := (if c then s.consecutiveCorrect + 1 else 0)
        memoryAccuracy := acc
        adaptiveFactors := af
        playerMistakePatterns := mt
        playerSuccessPatterns := st
        playerPerformanceByGridSize := pg
        playerPerformanceByPatternLength := pl } ∧
      (EngineInv s → 0.3 ≤ acc ∧ acc ≤ 0.95 ∧ FactorsInRange af) := by
  cases c with
  | true =>
    unfold recordResult
    rw [if_pos rfl]
    dsimp only
    cases p with
    | none =>
      obtain ⟨acc, af, pg, pl, e, hAdap, hB⟩ :=
        successTail_eq
          { s with totalAttempts := s.totalAttempts + 1
                   correctAttempts := s.correctAttempts + 1
                   consecutiveCorrect := s.consecutiveCorrect + 1 } none g
      dsimp only at hB
      refine ⟨acc, af, s.playerMistakePatterns, s.playerSuccessPatterns, pg, pl, ?_, ?_⟩
      · rw [e]
        rfl
      · intro hInv
        obtain ⟨i1, i2, i3, i4⟩ := hInv
        exact hB i1 i2 i3 i4
    | some pp =>
      obtain ⟨af2, e2, c1, c2, c3, c4, c5⟩ :=
        recordPlayerSuccess_eq
          { s with totalAttempts := s.totalAttempts + 1
                   correctAttempts := s.correctAttempts + 1
                   consecutiveCorrect := s.consecutiveCorrect + 1 } pp rt
      obtain ⟨acc, af, pg, pl, e, hAdap, hB⟩ :=
        successTail_eq
          (recordPlayerSuccess
            { s with totalAttempts := s.totalAttempts + 1
                     correctAttempts := s.correctAttempts + 1
                     consecutiveCorrect := s.consecutiveCorrect + 1 } pp rt) (some pp) g
      rw [e2] at hB
      dsimp only at c1 c2 c3 c4 c5 hB
      refine ⟨acc, af, s.playerMistakePatterns, pp.foldl bumpCount s.playerSuccessPatterns,
        pg, pl, ?_, ?_⟩
      · rw [e, e2]
        rfl
      · intro hInv
        obtain ⟨i1, i2, i3, i4⟩ := hInv
        have hfr2 : FactorsInRange af2 := by
          obtain ⟨f1, f2, f3, f4, f5⟩ := i3
          refine ⟨?_, ?_, ?_, ?_, ?_⟩
          · rw [c1]; exact f1
          · rw [c2]; exact f2
          · rw [c3]; exact f3
          · exact range_of_eq_or_bump c5 f4.1 f4.2 (by norm_num) (by norm_num) (by norm_num)
          · rw [c4]; exact f5
        exact hB i1 i2 hfr2 i4
  | false =>
    unfold recordResult
    rw [if_neg (by simp)]
    dsimp only
    cases p with
    | none =>
      cases a with
      | none =>
        obtain ⟨acc, af, pg, pl, e, hAdap, hNot, hB⟩ :=
          failureTail_eq
            { s with totalAttempts := s.totalAttempts + 1, consecutiveCorrect := 0 } none g
        dsimp only at hB
        refine ⟨acc, af, s.playerMistakePatterns, s.playerSuccessPatterns, pg, pl, ?_, ?_⟩
        · rw [e]
          rfl
        · intro hInv
          obtain ⟨i1, i2, i3, i4⟩ := hInv
          exact hB i1 i2 i3 i4
      | some aa =>
        obtain ⟨acc, af, pg, pl, e, hAdap, hNot, hB⟩ :=
          failureTail_eq
            { s with totalAttempts := s.totalAttempts + 1, consecutiveCorrect := 0 } none g
        dsimp only at hB
        refine ⟨acc, af, s.playerMistakePatterns, s.playerSuccessPatterns, pg, pl, ?_, ?_⟩
        · rw [e]
          rfl
        · intro hInv
          obtain ⟨i1, i2, i3, i4⟩ := hInv
          exact hB i1 i2 i3 i4
    | some pp =>
      cases a with
      | none =>
        obtain ⟨acc, af, pg, pl, e, hAdap, hNot, hB⟩ :=
          failureTail_eq
            { s with totalAttempts := s.totalAttempts + 1, consecutiveCorrect := 0 } (some pp) g
        dsimp only at hB
        refine ⟨acc, af, s.playerMistakePatterns, s.playerSuccessPatterns, pg, pl, ?_, ?_⟩
        · rw [e]
          rfl
        · intro hInv
          obtain ⟨i1, i2, i3, i4⟩ := hInv
          exact hB i1 i2 i3 i4
      | some aa =>
        obtain ⟨af2, e2, c1, c2, c3, c4, c5, c6, c7⟩ :=
          recordPlayerMistake_eq
            { s with totalAttempts := s.totalAttempts + 1, consecutiveCorrect := 0 } pp aa
        obtain ⟨acc, af, pg, pl, e, hAdap, hNot, hB⟩ :=
          failureTail_eq
            (recordPlayerMistake
              { s with totalAttempts := s.totalAttempts + 1, consecutiveCorrect := 0 } pp aa)
            (some pp) g
        rw [e2] at hB
        dsimp only at c1 c2 c3 c4 c5 hB
        refine ⟨acc, af,
          ((pp.filter (fun tile => tile ∉ aa)) ++ (aa.filter (fun tile => tile ∉ pp))).foldl
            bumpCount s.playerMistakePatterns,
          s.playerSuccessPatterns, pg, pl, ?_, ?_⟩
        · rw [e, e2]
          rfl
        · intro hInv
          obtain ⟨i1, i2, i3, i4⟩ := hInv
          have hfr2 : FactorsInRange af2 := by
            obtain ⟨f1, f2, f3, f4, f5⟩ := i3
            refine ⟨?_, ?_, ?_, ?_, ?_⟩
            · rw [c1]; exact f1
            · exact range_of_eq_or_bump c5 f2.1 f2.2 (by norm_num) (by norm_num) (by norm_num)
            · exact range_of_eq_or_bump c4 f3.1 f3.2 (by norm_num) (by norm_num) (by norm_num)
            · rw [c2]; exact f4
            · rw [c3]; exact f5
          exact hB i1 i2 hfr2 i4

/-- `memorizePattern` mutates only the histories and the learning-progress
accumulator. -/
theorem memorizePattern_state (s : AIPlayer) (pattern : List Nat) (gridSize : Nat)
    (level : ℚ) (rt : Option ℚ) (o : RecallOracle) (fuel : Nat) :
    (memorizePattern s pattern gridSize level rt o fuel).1 = { s with
      patternHistory := s.patternHistory ++ [pattern]
      patternComplexityHistory :=
        s.patternComplexityHistory ++ [⟨pattern.length, gridSize, level⟩]
      responseTimeHistory := s.responseTimeHistory ++ rt.toList
      learningProgress := s.learningProgress + learningBonusOf s pattern } := rfl

/-- `adjustDifficulty` is the identity on non-adaptive tiers. -/
theorem adjustDifficulty_not_adaptive (s : AIPlayer) (a b c d : ℚ)
    (h : s.difficulty ≠ Difficulty.adaptive) : adjustDifficulty s a b c d = s := by
  unfold adjustDifficulty
  rw [if_pos h]

/-- The trend scan preserves the engine invariant. -/
theorem updateAdaptiveFactorsFromTrends_inv (t : AIPlayer) (h : EngineInv t) :
    EngineInv (updateAdaptiveFactorsFromTrends t) := by
  unfold updateAdaptiveFactorsFromTrends
  obtain ⟨af1, e1, p1, r1, er1, sq1, sp1⟩ := trendBumpSpatial_eq t
  obtain ⟨af2, e2, p2, r2, er2, sp2, sq2⟩ := trendBumpSequence_eq (trendBumpSpatial t)
  rw [e1] at p2 r2 er2 sp2 sq2
  dsimp only at p2 r2 er2 sp2 sq2
  rw [e2, e1]
  obtain ⟨h1, h2, ⟨f1, f2, f3, f4, f5⟩, h4⟩ := h
  have hf1 : FactorsInRange af1 := by
    refine ⟨?_, ?_, ?_, ?_, ?_⟩
    · rw [p1]; exact f1
    · exact range_of_eq_or_bump sp1 f2.1 f2.2 (by norm_num) (by norm_num) (le_refl 2)
    · rw [sq1]; exact f3
    · rw [r1]; exact f4
    · rw [er1]; exact f5
  have hf2 : FactorsInRange af2 := by
    obtain ⟨g1, g2, g3, g4, g5⟩ := hf1
    refine ⟨?_, ?_, ?_, ?_, ?_⟩
    · rw [p2]; exact g1
    · rw [sp2]; exact g2
    · exact range_of_eq_or_bump sq2 g3.1 g3.2 (by norm_num) (by norm_num) (le_refl 2)
    · rw [r2]; exact g4
    · rw [er2]; exact g5
  exact ⟨h1, h2, hf2, h4⟩

/-- The trend scan does not touch the attempt counters. -/
theorem updateAdaptiveFactorsFromTrends_counters (t : AIPlayer) :
    (updateAdaptiveFactorsFromTrends t).totalAttempts = t.totalAttempts ∧
    (updateAdaptiveFactorsFromTrends t).correctAttempts = t.correctAttempts := by
  unfold updateAdaptiveFactorsFromTrends
  obtain ⟨af1, e1, _⟩ := trendBumpSpatial_eq t
  obtain ⟨af2, e2, _⟩ := trendBumpSequence_eq (trendBumpSpatial t)
  rw [e2, e1]
  exact ⟨rfl, rfl⟩

/-- `adjustDifficulty` preserves the engine invariant. -/
theorem adjustDifficulty_inv (s : AIPlayer) (a b c d : ℚ) (h : EngineInv s) :
    EngineInv (adjustDifficulty s a b c d) := by
  unfold adjustDifficulty
  by_cases hd : s.difficulty = Difficulty.adaptive
  · rw [if_neg (fun hc => hc hd)]
    dsimp only
    apply updateAdaptiveFactorsFromTrends_inv
    obtain ⟨h1, h2, ⟨f1, f2, f3, f4, f5⟩, h4⟩ := h
    refine ⟨le_max_left _ _, max_le (by norm_num) (min_le_left _ _), ?_, ?_⟩
    · show FactorsInRange (AIPlayer.adaptiveFactors (ite _ _ _))
      rw [apply_ite AIPlayer.adaptiveFactors]
      split_ifs with hrt
      · exact ⟨f1, f2, f3, bump_mem f4.1 (by norm_num) (by norm_num) (le_refl 2), f5⟩
      · exact ⟨f1, f2, f3, f4, f5⟩
    · show AIPlayer.personalityTraits (ite _ _ _) = getPersonalityTraits (AIPlayer.personality (ite _ _ _))
      rw [apply_ite AIPlayer.personalityTraits, apply_ite AIPlayer.personality]
      split_ifs with hrt <;> exact h4
  · rw [if_pos hd]
    exact h

/-- `adjustDifficulty` does not touch the attempt counters. -/
theorem adjustDifficulty_counters (s : AIPlayer) (a b c d : ℚ) :
    (adjustDifficulty s a b c d).totalAttempts = s.totalAttempts ∧
    (adjustDifficulty s a b c d).correctAttempts = s.correctAttempts := by
  unfold adjustDifficulty
  by_cases hd : s.difficulty = Difficulty.adaptive
  · rw [if_neg (fun hc => hc hd)]
    dsimp only
    rw [(updateAdaptiveFactorsFromTrends_counters _).1,
      (updateAdaptiveFactorsFromTrends_counters _).2]
    constructor
    · show AIPlayer.totalAttempts (ite _ _ _) = s.totalAttempts
      rw [apply_ite AIPlayer.totalAttempts]
      split_ifs <;> rfl
    · show AIPlayer.correctAttempts (ite _ _ _) = s.correctAttempts
      rw [apply_ite AIPlayer.correctAttempts]
      split_ifs <;> rfl
  · rw [if_pos hd]
    exact ⟨rfl, rfl⟩

/-- Every engine step preserves the invariant. -/
theorem engineStep_inv {s1 s2 : AIPlayer} (hstep : EngineStep s1 s2) (h : EngineInv s1) :
    EngineInv s2 := by
  cases hstep with
  | memorize pattern gridSize level rt o fuel =>
    rw [memorizePattern_state]
    exact ⟨h.1, h.2.1, h.2.2.1, h.2.2.2⟩
  | record c pat att g rt =>
    obtain ⟨acc, af, mt, st, pg, pl, e, hb⟩ := recordResult_eq s1 c pat att g rt
    rw [e]
    obtain ⟨b1, b2, b3⟩ := hb h
    exact ⟨b1, b2, b3, h.2.2.2⟩
  | adjust => exact adjustDifficulty_inv _ _ _ _ _ h

/-- Claim C3: for every opponent state reachable from the constructor by any
sequence of `memorizePattern`, `recordResult` and `adjustDifficulty` calls,
the base accuracy (`memoryAccuracy`) lies in `[0.3, 0.95]` and each of the
five adaptive factors lies in `[0.5, 2]`. -/
theorem claim_c3_reachable_bounds (d : Difficulty) (p : Personality) (s : AIPlayer)
    (h : ReachableFrom d p s) :
    (0.3 ≤ s.memoryAccuracy ∧ s.memoryAccuracy ≤ 0.95) ∧
      FactorsInRange s.adaptiveFactors := by
  have hinv : EngineInv s := by
    unfold ReachableFrom at h
    induction h with
    | refl => exact engineInv_mk d p
    | tail hr hstep ih => exact engineStep_inv hstep ih
  exact ⟨⟨hinv.1, hinv.2.1⟩, hinv.2.2.1⟩

/-- Witness for C3 at a concrete reachable state (one successful round
recorded on a fresh adaptive opponent). -/
theorem claim_c3_reachable_bounds_witness :
    (0.3 ≤ (recordResult (mkAIPlayer .adaptive .balanced) true (some [0]) (some [0])
        (some 3) none).memoryAccuracy ∧
      (recordResult (mkAIPlayer .adaptive .balanced) true (some [0]) (some [0])
        (some 3) none).memoryAccuracy ≤ 0.95) ∧
      FactorsInRange (recordResult (mkAIPlayer .adaptive .balanced) true (some [0]) (some [0])
        (some 3) none).adaptiveFactors :=
  claim_c3_reachable_bounds .adaptive .balanced _
    (Relation.ReflTransGen.single
      (EngineStep.record (mkAIPlayer .adaptive .balanced) true (some [0]) (some [0])
        (some 3) none))

/-- Claim C9: across every sequence of engine operations, `totalAttempts`
never decreases and `correctAttempts ≤ totalAttempts` holds after every
operation; each `recordResult` increments `totalAttempts` by exactly one and
increments `correctAttempts` exactly on success. -/
theorem claim_c9_counters :
    (∀ d p s, ReachableFrom d p s → s.correctAttempts ≤ s.totalAttempts) ∧
    (∀ s1 s2, EngineStep s1 s2 → s1.totalAttempts ≤ s2.totalAttempts) ∧
    (∀ s c pat att g rt,
      (recordResult s c pat att g rt).totalAttempts = s.totalAttempts + 1 ∧
      (recordResult s c pat att g rt).correctAttempts =
        s.correctAttempts + (if c then 1 else 0)) := by
  have hrec : ∀ s c pat att g rt,
      (recordResult s c pat att g rt).totalAttempts = s.totalAttempts + 1 ∧
      (recordResult s c pat att g rt).correctAttempts =
        s.correctAttempts + (if c then 1 else 0) := by
    intro s c pat att g rt
    obtain ⟨acc, af, mt, st, pg, pl, e, _⟩ := recordResult_eq s c pat att g rt
    rw [e]
    exact ⟨rfl, rfl⟩
  have hstep : ∀ s1 s2, EngineStep s1 s2 →
      s1.totalAttempts ≤ s2.totalAttempts ∧
      (s1.correctAttempts ≤ s1.totalAttempts → s2.correctAttempts ≤ s2.totalAttempts) := by
    intro s1 s2 hs
    cases hs with
    | memorize pattern gridSize level rt o fuel =>
      rw [memorizePattern_state]
      exact ⟨le_refl _, fun hh => hh⟩
    | record c pat att g rt =>
      obtain ⟨h1, h2⟩ := hrec s1 c pat att g rt
      rw [h1, h2]
      constructor
      · omega
      · intro hh
        cases c <;> simp <;> omega
    | adjust =>
      obtain ⟨h1, h2⟩ := adjustDifficulty_counters s1 _ _ _ _
      rw [h1, h2]
      exact ⟨le_refl _, fun hh => hh⟩
  refine ⟨?_, fun s1 s2 hs => (hstep s1 s2 hs).1, hrec⟩
  intro d p s h
  unfold ReachableFrom at h
  induction h with
  | refl => exact Nat.le_refl 0
  | tail hr hs ih => exact (hstep _ _ hs).2 ih

/-- Witness for C9 at a concrete `recordResult` call. -/
theorem claim_c9_counters_witness :
    (recordResult (mkAIPlayer .medium .balanced) true none none none none).totalAttempts =
      (mkAIPlayer .medium .balanced).totalAttempts + 1 ∧
    (recordResult (mkAIPlayer .medium .balanced) true none none none none).correctAttempts =
      (mkAIPlayer .medium .balanced).correctAttempts + (if true then 1 else 0) :=
  claim_c9_counters.2.2 (mkAIPlayer .medium .balanced) true none none none none

/-- Claim C7: for every opponent whose difficulty tier is not self-adjusting,
`adjustDifficulty` leaves every field of the state unchanged. -/
theorem claim_c7_recalibrate_noop (s : AIPlayer) (playerSuccessRate averageResponseTime
    level consecutiveCorrect : ℚ) (h : s.difficulty ≠ Difficulty.adaptive) :
    adjustDifficulty s playerSuccessRate averageResponseTime level consecutiveCorrect = s :=
  adjustDifficulty_not_adaptive s _ _ _ _ h

/-- Witness for C7: a hard-tier opponent is unchanged by
`adjustDifficulty(0.9, ...)`. -/
theorem claim_c7_recalibrate_noop_witness :
    adjustDifficulty (mkAIPlayer .hard .balanced) 0.9 2000 1 0 = mkAIPlayer .hard .balanced :=
  claim_c7_recalibrate_noop (mkAIPlayer .hard .balanced) 0.9 2000 1 0 (by decide)

/-- Claim C6: on the adaptive tier, each success raises the accuracy by
`0.01 × consecutiveCorrect × (1 + adaptationSpeed)` (with the consecutive
counter already incremented), capped at 0.95; on a fresh adaptive opponent
three consecutive successes strictly increase the accuracy, never reaching
the cap. -/
theorem claim_c6_adaptive_success_accuracy :
    (∀ (s : AIPlayer) (p a : Option (List Nat)) (g : Option Nat) (rt : Option ℚ),
      s.difficulty = Difficulty.adaptive →
      (recordResult s true p a g rt).memoryAccuracy =
        min 0.95 (s.memoryAccuracy +
          0.01 * ((s.consecutiveCorrect + 1 : Nat) : ℚ) *
            (1 + s.personalityTraits.adaptationSpeed))) ∧
    ((mkAIPlayer .adaptive .balanced).memoryAccuracy <
      (recordResult (mkAIPlayer .adaptive .balanced) true none none none none).memoryAccuracy ∧
     (recordResult (mkAIPlayer .adaptive .balanced) true none none none none).memoryAccuracy <
      (recordResult (recordResult (mkAIPlayer .adaptive .balanced) true none none none none)
        true none none none none).memoryAccuracy ∧
     (recordResult (recordResult (mkAIPlayer .adaptive .balanced) true none none none none)
        true none none none none).memoryAccuracy <
      (recordResult (recordResult (recordResult (mkAIPlayer .adaptive .balanced)
        true none none none none) true none none none none)
        true none none none none).memoryAccuracy ∧
     (recordResult (recordResult (recordResult (mkAIPlayer .adaptive .balanced)
        true none none none none) true none none none none)
        true none none none none).memoryAccuracy ≤ 0.95) := by
  have hgen : ∀ (s : AIPlayer) (p a : Option (List Nat)) (g : Option Nat) (rt : Option ℚ),
      s.difficulty = Difficulty.adaptive →
      (recordResult s true p a g rt).memoryAccuracy =
        min 0.95 (s.memoryAccuracy +
          0.01 * ((s.consecutiveCorrect + 1 : Nat) : ℚ) *
            (1 + s.personalityTraits.adaptationSpeed)) := by
    intro s p a g rt hd
    unfold recordResult
    rw [if_pos rfl]
    dsimp only
    cases p with
    | none =>
      obtain ⟨acc, af, pg, pl, e, hAdap, hB⟩ :=
        successTail_eq
          { s with totalAttempts := s.totalAttempts + 1
                   correctAttempts := s.correctAttempts + 1
                   consecutiveCorrect := s.consecutiveCorrect + 1 } none g
      dsimp only at hAdap
      rw [e]
      exact hAdap hd
    | some pp =>
      obtain ⟨af2, e2, c1, c2, c3, c4, c5⟩ :=
        recordPlayerSuccess_eq
          { s with totalAttempts := s.totalAttempts + 1
                   correctAttempts := s.correctAttempts + 1
                   consecutiveCorrect := s.consecutiveCorrect + 1 } pp rt
      obtain ⟨acc, af, pg, pl, e, hAdap, hB⟩ :=
        successTail_eq
          (recordPlayerSuccess
            { s with totalAttempts := s.totalAttempts + 1
                     correctAttempts := s.correctAttempts + 1
                     consecutiveCorrect := s.consecutiveCorrect + 1 } pp rt) (some pp) g
      rw [e2] at hAdap
      dsimp only at hAdap
      rw [e, e2]
      exact hAdap hd
  refine ⟨hgen, ?_⟩
  norm_num [recordResult, adaptiveSuccessUpdate, updateAdaptiveFactors, recordGridPerf,
    recordLenPerf, mkAIPlayer, getPersonalityTraits, getBaseAccuracyForDifficulty,
    getLearningRateForDifficulty, min_def]

/-- Witness for C6's universal part at a concrete adaptive opponent. -/
theorem claim_c6_adaptive_success_accuracy_witness :
    (recordResult (mkAIPlayer .adaptive .analytical) true none none none none).memoryAccuracy =
      min 0.95 ((mkAIPlayer .adaptive .analytical).memoryAccuracy +
        0.01 * (((mkAIPlayer .adaptive .analytical).consecutiveCorrect + 1 : Nat) : ℚ) *
          (1 + (mkAIPlayer .adaptive .analytical).personalityTraits.adaptationSpeed)) :=
  claim_c6_adaptive_success_accuracy.1 (mkAIPlayer .adaptive .analytical) none none none none
    rfl

/-- Claim C5 (amended): on an adaptive-tier failure recorded with a pattern
and submission, error recovery never decreases (bumped, cap 2) and the
pattern-recognition and reaction-speed factors never increase; the
sequence/spatial memory factors are also non-increasing, but only for
patterns that are not classified sequential / clustered (for those the
mistake recorder first bumps them by 0.05, which outweighs the 0.01
decay). -/
theorem claim_c5_failure_factor_changes (s : AIPlayer) (p a : List Nat) (g : Option Nat)
    (rt : Option ℚ) (hd : s.difficulty = Difficulty.adaptive)
    (hfr : FactorsInRange s.adaptiveFactors) :
    s.adaptiveFactors.errorRecovery ≤
      (recordResult s false (some p) (some a) g rt).adaptiveFactors.errorRecovery ∧
    (recordResult s false (some p) (some a) g rt).adaptiveFactors.errorRecovery ≤ 2 ∧
    (recordResult s false (some p) (some a) g rt).adaptiveFactors.patternRecognition ≤
      s.adaptiveFactors.patternRecognition ∧
    (recordResult s false (some p) (some a) g rt).adaptiveFactors.reactionSpeed ≤
      s.adaptiveFactors.reactionSpeed ∧
    (¬(2 < p.length ∧ isSequentialPattern p = true) →
      (recordResult s false (some p) (some a) g rt).adaptiveFactors.sequenceMemory ≤
        s.adaptiveFactors.sequenceMemory) ∧
    (¬(2 < p.length ∧ isClusteredPattern p = true) →
      (recordResult s false (some p) (some a) g rt).adaptiveFactors.spatialMemory ≤
        s.adaptiveFactors.spatialMemory) := by
  unfold recordResult
  rw [if_neg (by simp)]
  dsimp only
  obtain ⟨af2, e2, c1, c2, c3, c4, c5, c6, c7⟩ :=
    recordPlayerMistake_eq
      { s with totalAttempts := s.totalAttempts + 1, consecutiveCorrect := 0 } p a
  obtain ⟨acc, af, pg, pl, e, hAdap, hNot, hB⟩ :=
    failureTail_eq
      (recordPlayerMistake
        { s with totalAttempts := s.totalAttempts + 1, consecutiveCorrect := 0 } p a)
      (some p) g
  rw [e2] at hAdap
  dsimp only at c1 c2 c3 c4 c5 c6 c7 hAdap
  rw [e, e2]
  dsimp only
  obtain ⟨hacc, haf⟩ := hAdap hd
  rw [haf]
  obtain ⟨f1, f2, f3, f4, f5⟩ := hfr
  refine ⟨?_, ?_, ?_, ?_, ?_, ?_⟩
  · rw [c3]
    exact le_min f5.2 (by linarith)
  · rw [c3]
    exact min_le_left _ _
  · rw [c1]
    exact max_le f1.1 (by linarith)
  · rw [c2]
    exact max_le f4.1 (by linarith)
  · intro hc
    rw [c6 hc]
    exact max_le f3.1 (by linarith)
  · intro hc
    rw [c7 hc]
    exact max_le f2.1 (by linarith)

/-- Witness for C5's amended statement at a concrete input: a failure on a
non-sequential, non-clustered pattern decays pattern recognition. -/
theorem claim_c5_failure_factor_changes_witness :
    (mkAIPlayer .adaptive .balanced).difficulty = Difficulty.adaptive ∧
    (mkAIPlayer .adaptive .balanced).adaptiveFactors.errorRecovery ≤
      (recordResult (mkAIPlayer .adaptive .balanced) false (some [0, 8]) (some [1])
        none none).adaptiveFactors.errorRecovery := by
  have h := claim_c5_failure_factor_changes (mkAIPlayer .adaptive .balanced) [0, 8] [1]
    none none rfl (by norm_num [mkAIPlayer, FactorsInRange])
  exact ⟨rfl, h.1⟩

/-- Counterexample for C5 as stated: on a fresh adaptive opponent, a failure
recorded with the sequential pattern `[0, 1, 2]` *raises* the sequence-memory
factor (1.0 → 1.04): the mistake recorder bumps it by 0.05 before the 0.01
decay. -/
theorem claim_c5_counterexample :
    (mkAIPlayer .adaptive .balanced).adaptiveFactors.sequenceMemory <
      (recordResult (mkAIPlayer .adaptive .balanced) false (some [0, 1, 2]) (some [3])
        none none).adaptiveFactors.sequenceMemory := by
  norm_num [recordResult, adaptiveFailureUpdate, updateAdaptiveFactors, recordGridPerf,
    recordLenPerf, recordPlayerMistake, mkAIPlayer, getPersonalityTraits,
    getBaseAccuracyForDifficulty, getLearningRateForDifficulty, isSequentialPattern,
    sequentialCount, isClusteredPattern, pairDistSum, pairCount, bumpCount, tableGet,
    tableSet, min_def, max_def]

/-! ### Counting lemmas for the mistake-frequency table -/

theorem tableGet_tableSet {β : Type} (m : List (Nat × β)) (k : Nat) (v : β) (t : Nat) :
    tableGet (tableSet m k v) t = if t = k then some v else tableGet m t := by
  induction m with
  | nil =>
    simp [tableSet, tableGet]
  | cons hd tl ih =>
    obtain ⟨a, b⟩ := hd
    by_cases htk : t = k
    · subst htk
      rw [if_pos rfl]
      simp only [tableSet]
      split_ifs with h1 h2
      · simp [tableGet]
      · subst h2
        simp [tableGet]
      · have hta : ¬t = a := by omega
        simp [tableGet, hta, ih]
    · rw [if_neg htk]
      simp only [tableSet]
      split_ifs with h1 h2
      · simp [tableGet, htk]
      · subst h2
        simp [tableGet, htk]
      · by_cases hta : t = a
        · simp [tableGet, hta]
        · simp [tableGet, hta, ih, htk]

theorem lookup_bumpCount (m : List (Nat × Nat)) (k t : Nat) :
    (tableGet (bumpCount m k) t).getD 0 =
      (tableGet m t).getD 0 + (if t = k then 1 else 0) := by
  unfold bumpCount
  rw [tableGet_tableSet]
  split_ifs with h
  · subst h
    simp
  · simp

theorem lookup_foldl_bumpCount (l : List Nat) (m : List (Nat × Nat)) (t : Nat) :
    (tableGet (l.foldl bumpCount m) t).getD 0 = (tableGet m t).getD 0 + l.count t := by
  induction l generalizing m with
  | nil => simp
  | cons x xs ih =>
    rw [List.foldl_cons, ih, lookup_bumpCount, List.count_cons]
    by_cases h : x = t
    · subst h
      simp only [if_pos rfl, beq_self_eq_true, if_true]
      omega
    · have h2 : ¬t = x := fun hc => h hc.symm
      simp [h, h2]

theorem count_of_nodup (l : List Nat) (h : l.Nodup) (t : Nat) :
    l.count t = if t ∈ l then 1 else 0 := by
  by_cases hm : t ∈ l
  · rw [if_pos hm]
    exact List.count_eq_one_of_mem h hm
  · rw [if_neg hm]
    exact List.count_eq_zero_of_not_mem hm

/-- The failure branch of `recordResult` bumps the mistake table with exactly
the missed and spurious tiles, and resets the consecutive counter. -/
theorem recordResult_failure_mistakes (s : AIPlayer) (p a : List Nat) (g : Option Nat)
    (rt : Option ℚ) :
    (recordResult s false (some p) (some a) g rt).playerMistakePatterns =
      ((p.filter (fun tile => tile ∉ a)) ++ (a.filter (fun tile => tile ∉ p))).foldl
        bumpCount s.playerMistakePatterns ∧
    (recordResult s false (some p) (some a) g rt).consecutiveCorrect = 0 := by
  unfold recordResult
  rw [if_neg (by simp)]
  dsimp only
  obtain ⟨af2, e2, _⟩ :=
    recordPlayerMistake_eq
      { s with totalAttempts := s.totalAttempts + 1, consecutiveCorrect := 0 } p a
  obtain ⟨acc, af, pg, pl, e, _⟩ :=
    failureTail_eq
      (recordPlayerMistake
        { s with totalAttempts := s.totalAttempts + 1, consecutiveCorrect := 0 } p a)
      (some p) g
  rw [e, e2]
  exact ⟨rfl, rfl⟩

/-- Claim C8: a recorded failure increments the mistake count of each missed
cell (in the pattern, not the submission) and each spurious cell (in the
submission, not the pattern) by exactly one, leaves cells present in both
uncounted, and resets `consecutiveCorrect`; in particular the fresh
medium-tier scenario `recordResult(false, [0,3,6], [0,3,8], {gridSize: 3})`
yields counts 1 for cells 6 and 8 and a zero consecutive counter. -/
theorem claim_c8_mistake_recording :
    (∀ (s : AIPlayer) (p a : List Nat) (g : Option Nat) (rt : Option ℚ),
      p.Nodup → a.Nodup →
      (∀ t : Nat,
        (tableGet (recordResult s false (some p) (some a) g rt).playerMistakePatterns
            t).getD 0 =
          (tableGet s.playerMistakePatterns t).getD 0 +
            (if (t ∈ p ∧ t ∉ a) ∨ (t ∈ a ∧ t ∉ p) then 1 else 0)) ∧
      (recordResult s false (some p) (some a) g rt).consecutiveCorrect = 0) ∧
    ((tableGet (recordResult (mkAIPlayer .medium .balanced) false (some [0, 3, 6])
        (some [0, 3, 8]) (some 3) none).playerMistakePatterns 6).getD 0 = 1 ∧
     (tableGet (recordResult (mkAIPlayer .medium .balanced) false (some [0, 3, 6])
        (some [0, 3, 8]) (some 3) none).playerMistakePatterns 8).getD 0 = 1 ∧
     (recordResult (mkAIPlayer .medium .balanced) false (some [0, 3, 6]) (some [0, 3, 8])
        (some 3) none).consecutiveCorrect = 0) := by
  have hgen : ∀ (s : AIPlayer) (p a : List Nat) (g : Option Nat) (rt : Option ℚ),
      p.Nodup → a.Nodup →
      (∀ t : Nat,
        (tableGet (recordResult s false (some p) (some a) g rt).playerMistakePatterns
            t).getD 0 =
          (tableGet s.playerMistakePatterns t).getD 0 +
            (if (t ∈ p ∧ t ∉ a) ∨ (t ∈ a ∧ t ∉ p) then 1 else 0)) ∧
      (recordResult s false (some p) (some a) g rt).consecutiveCorrect = 0 := by
    intro s p a g rt hp ha
    obtain ⟨hm, hc⟩ := recordResult_failure_mistakes s p a g rt
    refine ⟨?_, hc⟩
    intro t
    rw [hm, lookup_foldl_bumpCount, List.count_append]
    have cm : (p.filter (fun tile => tile ∉ a)).count t =
        if t ∈ p ∧ t ∉ a then 1 else 0 := by
      rw [count_of_nodup _ (hp.filter _)]
      simp [List.mem_filter]
    have ci : (a.filter (fun tile => tile ∉ p)).count t =
        if t ∈ a ∧ t ∉ p then 1 else 0 := by
      rw [count_of_nodup _ (ha.filter _)]
      simp [List.mem_filter]
    rw [cm, ci]
    by_cases h1 : t ∈ p ∧ t ∉ a
    · have h2 : ¬(t ∈ a ∧ t ∉ p) := fun hc2 => h1.2 hc2.1
      simp [h1, h2]
    · by_cases h2 : t ∈ a ∧ t ∉ p
      · simp [h1, h2]
      · simp [h1, h2]
  refine ⟨hgen, ?_, ?_, ?_⟩
  · rw [(hgen (mkAIPlayer .medium .balanced) [0, 3, 6] [0, 3, 8] (some 3) none
      (by decide) (by decide)).1 6]
    decide
  · rw [(hgen (mkAIPlayer .medium .balanced) [0, 3, 6] [0, 3, 8] (some 3) none
      (by decide) (by decide)).1 8]
    decide
  · exact (hgen (mkAIPlayer .medium .balanced) [0, 3, 6] [0, 3, 8] (some 3) none
      (by decide) (by decide)).2

/-- Witness for C8's universal part at a concrete call. -/
theorem claim_c8_mistake_recording_witness :
    (tableGet (recordResult (mkAIPlayer .hard .balanced) false (some [1, 2]) (some [2, 3])
        none none).playerMistakePatterns 1).getD 0 =
      (tableGet (mkAIPlayer .hard .balanced).playerMistakePatterns 1).getD 0 +
        (if (1 ∈ [1, 2] ∧ 1 ∉ [2, 3]) ∨ (1 ∈ [2, 3] ∧ 1 ∉ [1, 2]) then 1 else 0) :=
  (claim_c8_mistake_recording.1 (mkAIPlayer .hard .balanced) [1, 2] [2, 3] none none
    (by decide) (by decide)).1 1

/-! ### Shape of the recall attempt (claim C4) -/

theorem keepPhase_sublist (accuracy : ℚ) (keep : Nat → ℚ) :
    ∀ (l : List Nat) (i : Nat), (keepPhase accuracy keep l i).Sublist l := by
  intro l
  induction l with
  | nil => intro i; exact List.Sublist.refl []
  | cons t ts ih =>
    intro i
    unfold keepPhase
    split_ifs with h
    · exact (ih (i + 1)).cons₂ t
    · exact (ih (i + 1)).cons t

theorem fillLoop_spec (total L : Nat) (pattern : List Nat) (tile coin : Nat → ℚ)
    (hs : ValidStream tile) (htotal : 1 ≤ total) :
    ∀ (fuel k : Nat) (attempt : List Nat), attempt.Nodup → (∀ x ∈ attempt, x < total) →
      attempt.length ≤ L → ∀ r, fillLoop total L pattern tile coin fuel k attempt = some r →
      r.length = L ∧ r.Nodup ∧ ∀ x ∈ r, x < total := by
  intro fuel
  induction fuel with
  | zero =>
    intro k attempt hnd hbd hlen r hr
    unfold fillLoop at hr
    split_ifs at hr with h
    cases hr
    exact ⟨Nat.le_antisymm hlen h, hnd, hbd⟩
  | succ f ih =>
    intro k attempt hnd hbd hlen r hr
    unfold fillLoop at hr
    dsimp only at hr
    split_ifs at hr with h1 h2
    · cases hr
      exact ⟨Nat.le_antisymm hlen h1, hnd, hbd⟩
    · exact ih (k + 1) attempt hnd hbd hlen r hr
    · have htlt : floorMul (tile k) total < total := floorMul_lt (hs k) htotal
      have hnotmem : floorMul (tile k) total ∉ attempt := fun hc => h2 (Or.inl hc)
      have hlen2 : attempt.length < L := lt_of_not_ge (fun hc => h1 hc)
      apply ih (k + 1) (attempt ++ [floorMul (tile k) total])
      · exact List.Nodup.append hnd (List.nodup_singleton _)
          (fun x hx hy => hnotmem ((List.mem_singleton.mp hy) ▸ hx))
      · intro x hx
        rcases List.mem_append.mp hx with hx | hx
        · exact hbd x hx
        · rw [List.mem_singleton.mp hx]
          exact htlt
      · rw [List.length_append, List.length_singleton]
        omega
      · exact hr

/-- Claim C4: for every pattern of distinct in-range cells, every terminating
run of `memorizePattern` (the recall simulator) returns a guess of exactly
the pattern's length, without duplicates, each cell in `[0, gridSize²)`; and
on an empty pattern it always returns the empty guess. -/
theorem claim_c4_recall_shape :
    (∀ (s : AIPlayer) (pattern : List Nat) (gridSize : Nat) (level : ℚ) (rt : Option ℚ)
        (o : RecallOracle) (fuel : Nat) (guess : List Nat),
      pattern.Nodup → (∀ c ∈ pattern, c < gridSize * gridSize) → ValidStream o.fillTile →
      (memorizePattern s pattern gridSize level rt o fuel).2 = some guess →
      guess.length = pattern.length ∧ guess.Nodup ∧ ∀ c ∈ guess, c < gridSize * gridSize) ∧
    (∀ (s : AIPlayer) (gridSize : Nat) (level : ℚ) (rt : Option ℚ) (o : RecallOracle)
        (fuel : Nat), (memorizePattern s [] gridSize level rt o fuel).2 = some []) := by
  constructor
  · intro s pattern gridSize level rt o fuel guess hnd hbd hvs hres
    unfold memorizePattern generateAttempt at hres
    dsimp only at hres
    rcases hfill : fillLoop (gridSize * gridSize) pattern.length pattern o.fillTile o.fillCoin
        fuel 0 (keepPhase (effectiveAccuracy s pattern level o.risk) o.keep pattern 0) with
      _ | r
    · rw [hfill] at hres
      cases hres
    · rw [hfill] at hres
      simp only [Option.map_some'] at hres
      cases pattern with
      | nil =>
        have hsub := keepPhase_sublist (effectiveAccuracy s [] level o.risk) o.keep [] 0
        have hkeep : keepPhase (effectiveAccuracy s [] level o.risk) o.keep [] 0 = [] := rfl
        rw [hkeep] at hfill
        have hr0 : r = [] := by
          cases fuel with
          | zero =>
            have h2 : some ([] : List Nat) = some r := hfill
            exact (Option.some.inj h2).symm
          | succ f =>
            have h2 : some ([] : List Nat) = some r := hfill
            exact (Option.some.inj h2).symm
        subst hr0
        have hg : guess = [] := (Option.some.inj hres).symm
        subst hg
        exact ⟨rfl, List.nodup_nil, by intro c hc; cases hc⟩
      | cons p0 ps =>
        have htotal : 1 ≤ gridSize * gridSize := by
          have := hbd p0 (List.mem_cons_self p0 ps)
          omega
        have hsub := keepPhase_sublist (effectiveAccuracy s (p0 :: ps) level o.risk) o.keep
          (p0 :: ps) 0
        obtain ⟨hlen, hrnd, hrbd⟩ :=
          fillLoop_spec (gridSize * gridSize) (p0 :: ps).length (p0 :: ps) o.fillTile
            o.fillCoin hvs htotal fuel 0 _ (hsub.nodup hnd)
            (fun x hx => hbd x (hsub.mem hx)) hsub.length_le r hfill
        have hge : fisherYates o.shuffle r = guess := Option.some.inj hres
        have hperm : guess.Perm r := hge ▸ fisherYates_perm o.shuffle r
        refine ⟨hperm.length_eq.trans hlen, hperm.nodup_iff.mpr hrnd, ?_⟩
        intro c hc
        exact hrbd c (hperm.mem_iff.mp hc)
  · intro s gridSize level rt o fuel
    cases fuel <;> rfl

/-- An all-zero draw oracle for concrete recall runs. -/
def zeroRecallOracle : RecallOracle where
  risk := 0
  keep := fun _ => 0
  fillTile := fun _ => 0
  fillCoin := fun _ => 0
  shuffle := fun _ => 0

/-- Witness for C4 at a concrete run: pattern `[0]` on a 1×1 grid is recalled
as `[0]`, and the empty pattern yields the empty guess. -/
theorem claim_c4_recall_shape_witness :
    ((([0] : List Nat).length = ([0] : List Nat).length ∧ ([0] : List Nat).Nodup ∧
      ∀ c ∈ ([0] : List Nat), c < 1 * 1)) ∧
    (memorizePattern (mkAIPlayer .medium .balanced) [] 1 1 none zeroRecallOracle 0).2 =
      some [] := by
  constructor
  · apply claim_c4_recall_shape.1 (mkAIPlayer .medium .balanced) [0] 1 1 none zeroRecallOracle 0
      [0] (by decide) (by decide) (fun i => by norm_num [ValidQ, zeroRecallOracle])
    norm_num [memorizePattern, generateAttempt, keepPhase, fillLoop, effectiveAccuracy,
      learningBonusOf, countSimilarPatterns, fisherYates, fyAux, mkAIPlayer,
      getPersonalityTraits, getBaseAccuracyForDifficulty, getLearningRateForDifficulty,
      zeroRecallOracle, min_def, max_def, floorMul_zero_left]
  · exact claim_c4_recall_shape.2 (mkAIPlayer .medium .balanced) 1 1 none zeroRecallOracle 0

/-! ### Shape of the composed challenge (claims C2 and C10) -/

theorem length_le_of_nodup_lt (l : List Nat) (total : Nat) (hnd : l.Nodup)
    (hbd : ∀ x ∈ l, x < total) : l.length ≤ total := by
  have h1 : l.toFinset.card = l.length := List.toFinset_card_of_nodup hnd
  have h2 : l.toFinset ⊆ Finset.range total := by
    intro x hx
    rw [List.mem_toFinset] at hx
    exact Finset.mem_range.mpr (hbd x hx)
  calc l.length = l.toFinset.card := h1.symm
  _ ≤ (Finset.range total).card := Finset.card_le_card h2
  _ = total := Finset.card_range total

theorem challengeFill_spec (total L : Nat) (draws : Nat → ℚ) (hs : ValidStream draws)
    (htotal : 1 ≤ total) :
    ∀ (fuel k : Nat) (acc : List Nat), acc.Nodup → (∀ x ∈ acc, x < total) →
      acc.length ≤ L → ∀ r, challengeFill total L draws fuel k acc = some r →
      r.length = L ∧ r.Nodup ∧ ∀ x ∈ r, x < total := by
  intro fuel
  induction fuel with
  | zero =>
    intro k acc hnd hbd hlen r hr
    unfold challengeFill at hr
    split_ifs at hr with h
    cases hr
    exact ⟨Nat.le_antisymm hlen h, hnd, hbd⟩
  | succ f ih =>
    intro k acc hnd hbd hlen r hr
    unfold challengeFill at hr
    dsimp only at hr
    split_ifs at hr with h1 h2
    · cases hr
      exact ⟨Nat.le_antisymm hlen h1, hnd, hbd⟩
    · exact ih (k + 1) acc hnd hbd hlen r hr
    · have htlt : floorMul (draws k) total < total := floorMul_lt (hs k) htotal
      have hlen2 : acc.length < L := lt_of_not_ge (fun hc => h1 hc)
      apply ih (k + 1) (acc ++ [floorMul (draws k) total])
      · exact List.Nodup.append hnd (List.nodup_singleton _)
          (fun x hx hy => h2 ((List.mem_singleton.mp hy) ▸ hx))
      · intro x hx
        rcases List.mem_append.mp hx with hx | hx
        · exact hbd x hx
        · rw [List.mem_singleton.mp hx]
          exact htlt
      · rw [List.length_append, List.length_singleton]
        omega
      · exact hr

/-- The final random-fill loop can never complete when more tiles are
requested than the grid has: every draw is rejected or pushes a fresh
in-range tile, and there are only `total` of those. -/
theorem challengeFill_none (total L : Nat) (draws : Nat → ℚ) (hs : ValidStream draws)
    (htotal : 1 ≤ total) (hLt : total < L) :
    ∀ (fuel k : Nat) (acc : List Nat), acc.Nodup → (∀ x ∈ acc, x < total) →
      challengeFill total L draws fuel k acc = none := by
  intro fuel
  induction fuel with
  | zero =>
    intro k acc hnd hbd
    unfold challengeFill
    rw [if_neg]
    have := length_le_of_nodup_lt acc total hnd hbd
    omega
  | succ f ih =>
    intro k acc hnd hbd
    have hle := length_le_of_nodup_lt acc total hnd hbd
    unfold challengeFill
    dsimp only
    rw [if_neg (by omega)]
    split_ifs with h2
    · exact ih (k + 1) acc hnd hbd
    · apply ih (k + 1)
      · exact List.Nodup.append hnd (List.nodup_singleton _)
          (fun x hx hy => h2 ((List.mem_singleton.mp hy) ▸ hx))
      · intro x hx
        rcases List.mem_append.mp hx with hx | hx
        · exact hbd x hx
        · rw [List.mem_singleton.mp hx]
          exact floorMul_lt (hs k) htotal

theorem challengeFill_extends (total L : Nat) (draws : Nat → ℚ) :
    ∀ (fuel k : Nat) (acc r : List Nat),
      challengeFill total L draws fuel k acc = some r → acc <+: r := by
  intro fuel
  induction fuel with
  | zero =>
    intro k acc r hr
    unfold challengeFill at hr
    split_ifs at hr
    cases hr
    exact List.prefix_refl _
  | succ f ih =>
    intro k acc r hr
    unfold challengeFill at hr
    dsimp only at hr
    split_ifs at hr with h1 h2
    · cases hr
      exact List.prefix_refl _
    · exact ih (k + 1) acc r hr
    · exact (List.prefix_append acc _).trans (ih (k + 1) _ r hr)

theorem seedLoop_eq (L total : Nat) :
    ∀ (l acc : List Nat),
      seedLoop L total l acc =
        acc ++ (l.filter (fun x => x < total)).take (L - acc.length)
  | [], acc => by simp [seedLoop]
  | t :: ts, acc => by
    unfold seedLoop
    by_cases h : acc.length ≥ L
    · rw [if_pos h]
      have h0 : L - acc.length = 0 := by omega
      rw [h0]
      simp
    · rw [if_neg h]
      by_cases ht : t < total
      · rw [if_pos ht, seedLoop_eq L total ts (acc ++ [t])]
        have h1 : (t :: ts).filter (fun x => x < total) =
            t :: ts.filter (fun x => x < total) := by
          simp [List.filter_cons, ht]
        have h2 : L - acc.length = (L - (acc ++ [t]).length) + 1 := by
          rw [List.length_append, List.length_singleton]
          omega
        rw [h1, h2, List.take_succ_cons]
        simp
      · rw [if_neg ht, seedLoop_eq L total ts acc]
        have h1 : (t :: ts).filter (fun x => x < total) =
            ts.filter (fun x => x < total) := by
          simp [List.filter_cons, ht]
        rw [h1]

theorem addLoop_spec (L total : Nat) :
    ∀ (l acc : List Nat), acc.Nodup → (∀ x ∈ acc, x < total) → acc.length ≤ L →
      (addLoop L total l acc).Nodup ∧ (∀ x ∈ addLoop L total l acc, x < total) ∧
        (addLoop L total l acc).length ≤ L ∧ acc <+: addLoop L total l acc
  | [], acc, hnd, hbd, hlen => by
    unfold addLoop
    exact ⟨hnd, hbd, hlen, List.prefix_refl acc⟩
  | t :: ts, acc, hnd, hbd, hlen => by
    unfold addLoop
    by_cases h1 : acc.length ≥ L
    · rw [if_pos h1]
      exact ⟨hnd, hbd, hlen, List.prefix_refl acc⟩
    · rw [if_neg h1]
      by_cases h2 : t ∉ acc ∧ t < total
      · rw [if_pos h2]
        have hnd2 : (acc ++ [t]).Nodup :=
          List.Nodup.append hnd (List.nodup_singleton _)
            (fun x hx hy => h2.1 ((List.mem_singleton.mp hy) ▸ hx))
        have hbd2 : ∀ x ∈ acc ++ [t], x < total := by
          intro x hx
          rcases List.mem_append.mp hx with hx | hx
          · exact hbd x hx
          · rw [List.mem_singleton.mp hx]
            exact h2.2
        have hlen2 : (acc ++ [t]).length ≤ L := by
          rw [List.length_append, List.length_singleton]
          omega
        obtain ⟨a1, a2, a3, a4⟩ := addLoop_spec L total ts (acc ++ [t]) hnd2 hbd2 hlen2
        exact ⟨a1, a2, a3, (List.prefix_append acc [t]).trans a4⟩
      · rw [if_neg h2]
        exact addLoop_spec L total ts acc hnd hbd hlen

theorem clusterLoop_spec (total cap : Nat) (center : Nat) :
    ∀ (ds : List Int) (acc : List Nat), acc.Nodup → (∀ x ∈ acc, x < total) →
      acc.length < cap →
      (clusterLoop total cap center ds acc).Nodup ∧
        (∀ x ∈ clusterLoop total cap center ds acc, x < total) ∧
        (clusterLoop total cap center ds acc).length ≤ cap
  | [], acc, hnd, hbd, hlt => by
    unfold clusterLoop
    exact ⟨hnd, hbd, Nat.le_of_lt hlt⟩
  | d :: ds, acc, hnd, hbd, hlt => by
    unfold clusterLoop
    dsimp only
    by_cases h1 : 0 ≤ (center : Int) + d ∧ (center : Int) + d < (total : Int) ∧
        ((center : Int) + d).toNat ∉ acc
    · rw [if_pos h1]
      have hnd2 : (acc ++ [((center : Int) + d).toNat]).Nodup :=
        List.Nodup.append hnd (List.nodup_singleton _)
          (fun x hx hy => h1.2.2 ((List.mem_singleton.mp hy) ▸ hx))
      have hbd2 : ∀ x ∈ acc ++ [((center : Int) + d).toNat], x < total := by
        intro x hx
        rcases List.mem_append.mp hx with hx | hx
        · exact hbd x hx
        · rw [List.mem_singleton.mp hx]
          have ha := h1.1
          have hb := h1.2.1
          omega
      by_cases h2 : (acc ++ [((center : Int) + d).toNat]).length ≥ cap
      · rw [if_pos h2]
        refine ⟨hnd2, hbd2, ?_⟩
        rw [List.length_append, List.length_singleton]
        omega
      · rw [if_neg h2]
        exact clusterLoop_spec total cap center ds _ hnd2 hbd2 (lt_of_not_ge h2)
    · rw [if_neg h1]
      exact clusterLoop_spec total cap center ds acc hnd hbd hlt

theorem seq_tiles_bound {q : ℚ} (h : ValidQ q) {total L i : Nat} (hL : L ≤ total)
    (hi : i < L) : floorMul q (total - L) + i < total := by
  by_cases h0 : total - L = 0
  · rw [h0, floorMul_zero_right]
    omega
  · have := floorMul_lt h (Nat.one_le_iff_ne_zero.mpr h0)
    omega

theorem center_lt {g : Nat} (hg : 1 ≤ g) {qr qc : ℚ} (hr : ValidQ qr) (hc : ValidQ qc) :
    floorMul qr g * g + floorMul qc g < g * g := by
  have h1 := floorMul_lt hr hg
  have h2 := floorMul_lt hc hg
  calc floorMul qr g * g + floorMul qc g < floorMul qr g * g + g := by omega
  _ = (floorMul qr g + 1) * g := by ring
  _ ≤ g * g := Nat.mul_le_mul_right g (by omega)

theorem sortedMistakeTiles_nodup (s : AIPlayer)
    (h : (s.playerMistakePatterns.map (fun e => e.1)).Nodup) :
    (sortedMistakeTiles s).Nodup := by
  unfold sortedMistakeTiles
  have hp := List.perm_insertionSort (fun a b : Nat × Nat => b.2 ≤ a.2)
    s.playerMistakePatterns
  exact ((hp.map (fun e => e.1)).nodup_iff).mpr h

theorem doSwaps_perm (L : Nat) (a b : Nat → ℚ) :
    ∀ (c i : Nat) (p : List Nat), (doSwaps L a b c i p).Perm p
  | 0, _, p => List.Perm.refl p
  | c + 1, i, p => by
    unfold doSwaps
    dsimp only
    refine (doSwaps_perm L a b c (i + 1) _).trans ?_
    by_cases h : floorMul (a i) L ≠ floorMul (b i) L
    · rw [if_pos h]
      exact listSwap_perm p _ _
    · rw [if_neg h]

theorem difficultySwaps_perm (L : Nat) (difficulty : ℚ) (a b : Nat → ℚ) (p : List Nat) :
    (difficultySwaps L difficulty a b p).Perm p := by
  unfold difficultySwaps
  by_cases h : difficulty > 0.5 ∧ L > 3
  · rw [if_pos h]
    exact doSwaps_perm L a b _ 0 p
  · rw [if_neg h]

theorem difficultySwaps_half (L : Nat) (a b : Nat → ℚ) (p : List Nat) :
    difficultySwaps L (1 / 2) a b p = p := by
  unfold difficultySwaps
  rw [if_neg]
  rintro ⟨h1, -⟩
  norm_num at h1

theorem challengeBase_spec (s : AIPlayer) (L g : Nat) (ptype : ChallengeType)
    (o : ChallengeOracle) (hL2 : 2 ≤ L) (hLg : L ≤ g * g) (hg : 1 ≤ g)
    (hseq : ValidQ o.seqStart) (hrow : ValidQ o.centerRow) (hcol : ValidQ o.centerCol)
    (hkeys : (s.playerMistakePatterns.map (fun e => e.1)).Nodup) :
    (challengeBase s L g ptype o).Nodup ∧
      (∀ x ∈ challengeBase s L g ptype o, x < g * g) ∧
      (challengeBase s L g ptype o).length ≤ L := by
  have hsort := sortedMistakeTiles_nodup s hkeys
  have hseeded : ∀ seeded : List Nat,
      seeded = (if s.playerMistakePatterns.isEmpty then []
        else seedLoop L (g * g) (sortedMistakeTiles s) []) →
      seeded.Nodup ∧ (∀ x ∈ seeded, x < g * g) ∧ seeded.length ≤ L := by
    intro seeded hs
    by_cases he : s.playerMistakePatterns.isEmpty
    · rw [if_pos he] at hs
      subst hs
      refine ⟨List.nodup_nil, ?_, by simp⟩
      intro x hx
      cases hx
    · rw [if_neg he, seedLoop_eq] at hs
      simp only [List.nil_append, List.length_nil, Nat.sub_zero] at hs
      subst hs
      refine ⟨?_, ?_, ?_⟩
      · exact List.Sublist.nodup (List.take_sublist _ _) (hsort.filter _)
      · intro x hx
        have hx2 := (List.mem_filter.mp (List.mem_of_mem_take hx)).2
        simpa using hx2
      · exact List.length_take_le _ _
  unfold challengeBase
  dsimp only
  by_cases hb1 : ptype = ChallengeType.adaptive ∧
      o.use < 0.7 + s.personalityTraits.riskTaking
  · rw [if_pos hb1]
    obtain ⟨snd, sbd, slen⟩ := hseeded _ rfl
    by_cases hlt : (if s.playerMistakePatterns.isEmpty then []
        else seedLoop L (g * g) (sortedMistakeTiles s) []).length < L
    · rw [if_pos hlt]
      obtain ⟨a1, a2, a3, -⟩ := addLoop_spec L (g * g) _ _ snd sbd slen
      exact ⟨a1, a2, a3⟩
    · rw [if_neg hlt]
      exact ⟨snd, sbd, slen⟩
  · rw [if_neg hb1]
    by_cases hb2 : ptype = ChallengeType.sequential ∨
        (ptype = ChallengeType.adaptive ∧ s.adaptiveFactors.sequenceMemory > 1.2)
    · rw [if_pos hb2]
      refine ⟨?_, ?_, ?_⟩
      · exact (List.nodup_range L).map (fun a b hab => by omega)
      · intro x hx
        obtain ⟨i, hi, rfl⟩ := List.mem_map.mp hx
        exact seq_tiles_bound hseq hLg (List.mem_range.mp hi)
      · simp
    · rw [if_neg hb2]
      by_cases hb3 : ptype = ChallengeType.shape ∨
          (ptype = ChallengeType.adaptive ∧ s.adaptiveFactors.spatialMemory > 1.2)
      · rw [if_pos hb3]
        have hc := center_lt hg hrow hcol
        refine clusterLoop_spec (g * g) L _ _ _ (List.nodup_singleton _) ?_ ?_
        · intro x hx
          rw [List.mem_singleton.mp hx]
          exact hc
        · simpa using Nat.lt_of_lt_of_le Nat.one_lt_two hL2
      · rw [if_neg hb3]
        refine ⟨List.nodup_nil, ?_, by simp⟩
        intro x hx
        cases hx

/-- Concrete all-zero oracle (with one in-range fill stream) for the C10
scenarios. -/
def c10Oracle : ChallengeOracle where
  use := 0
  seqStart := 0
  centerRow := 0
  centerCol := 0
  dirShuffle := fun _ => 0
  fill := fun _ => 0
  swapA := fun _ => 0
  swapB := fun _ => 0

/-- Claim C10 (corrected): for requested lengths of at least 2, under the
precondition `patternLength ≤ gridSize²` (and `gridSize ≥ 1`, in-range random
draws, and a duplicate-free mistake table), whenever `generateChallengePattern`
returns, it returns exactly `patternLength` distinct cell indices each in
`[0, gridSize²)`; and without the precondition the final random-fill loop can
never complete: from any duplicate-free in-range pattern state it returns no
result when more cells are requested than the grid has.  (For
`patternLength = 1` the exact-length part of the original claim is false: see
the counterexample.) -/
theorem claim_c10_challenge_length :
    (∀ (s : AIPlayer) (L g : Nat) (ptype : ChallengeType) (difficulty : ℚ)
        (o : ChallengeOracle) (fuel : Nat) (r : List Nat),
      2 ≤ L → L ≤ g * g → 1 ≤ g →
      ValidQ o.seqStart → ValidQ o.centerRow → ValidQ o.centerCol →
      ValidStream o.fill →
      (s.playerMistakePatterns.map (fun e => e.1)).Nodup →
      generateChallengePattern s L g ptype difficulty o fuel = some r →
      r.length = L ∧ r.Nodup ∧ ∀ x ∈ r, x < g * g) ∧
    (∀ (total L : Nat) (draws : Nat → ℚ) (fuel k : Nat) (acc : List Nat),
      ValidStream draws → 1 ≤ total → total < L → acc.Nodup →
      (∀ x ∈ acc, x < total) →
      challengeFill total L draws fuel k acc = none) := by
  constructor
  · intro s L g ptype difficulty o fuel r hL2 hLg hg hseq hrow hcol hfill hkeys hr
    obtain ⟨bnd, bbd, blen⟩ :=
      challengeBase_spec s L g ptype o hL2 hLg hg hseq hrow hcol hkeys
    unfold generateChallengePattern at hr
    obtain ⟨r0, hr0, hmap⟩ := Option.map_eq_some'.mp hr
    have hg1 : 1 ≤ g * g := Nat.mul_pos hg hg
    obtain ⟨l1, l2, l3⟩ :=
      challengeFill_spec (g * g) L o.fill hfill hg1 fuel 0 _ bnd bbd blen r0 hr0
    have hperm := difficultySwaps_perm L difficulty o.swapA o.swapB r0
    subst hmap
    refine ⟨?_, ?_, ?_⟩
    · rw [hperm.length_eq, l1]
    · exact hperm.nodup_iff.mpr l2
    · intro x hx
      exact l3 x (hperm.mem_iff.mp hx)
  · intro total L draws fuel k acc hs h1 hlt hnd hbd
    exact challengeFill_none total L draws hs h1 hlt fuel k acc hnd hbd

/-- Witness for C10 at a concrete call: a sequential challenge of length 2 on
a 2×2 grid, and the unfillable L = 2 request on a 1-cell grid. -/
theorem claim_c10_challenge_length_witness :
    (([0, 1] : List Nat).length = 2 ∧ ([0, 1] : List Nat).Nodup ∧
      ∀ x ∈ ([0, 1] : List Nat), x < 2 * 2) ∧
    challengeFill 1 2 (fun _ => 0) 0 0 [] = none :=
  ⟨claim_c10_challenge_length.1 (mkAIPlayer .medium .balanced) 2 2 ChallengeType.sequential
      (1 / 2) c10Oracle 0 [0, 1] (by norm_num) (by norm_num) (by norm_num)
      (by norm_num [ValidQ, c10Oracle]) (by norm_num [ValidQ, c10Oracle])
      (by norm_num [ValidQ, c10Oracle]) (fun i => by norm_num [ValidQ, c10Oracle])
      (by simp [mkAIPlayer])
      (by norm_num [generateChallengePattern, challengeBase, challengeFill,
            difficultySwaps_half, floorMul_zero_left, c10Oracle]
          all_goals decide),
   claim_c10_challenge_length.2 1 2 (fun _ => 0) 0 0 [] (fun i => by norm_num [ValidQ])
     (by norm_num) (by norm_num) List.nodup_nil (by intro x hx; cases hx)⟩

/-- Counterexample to C10 as stated: for `patternLength = 1 ≤ 9 = gridSize²`
the shape branch pushes the cluster centre and then one neighbour before its
length check, so `generateChallengePattern` returns 2 cells, not exactly 1. -/
theorem claim_c10_counterexample :
    generateChallengePattern (mkAIPlayer .medium .balanced) 1 3 ChallengeType.shape (1 / 2)
        c10Oracle 0 = some [0, 1] ∧
    (1 : Nat) ≤ 3 * 3 ∧ 1 ≤ (3 : Nat) ∧ ([0, 1] : List Nat).length ≠ 1 := by
  refine ⟨?_, by norm_num, by norm_num, by decide⟩
  norm_num [generateChallengePattern, challengeBase, challengeFill, difficultySwaps_half,
    floorMul_zero_left, c10Oracle, fisherYates, fyAux, listSwap, clusterLoop,
    challengeDirections]
  all_goals decide

theorem addLoop_extends (L total : Nat) :
    ∀ (l acc : List Nat), acc <+: addLoop L total l acc
  | [], acc => by
    unfold addLoop
    exact List.prefix_refl acc
  | t :: ts, acc => by
    unfold addLoop
    by_cases h1 : acc.length ≥ L
    · rw [if_pos h1]
    · rw [if_neg h1]
      by_cases h2 : t ∉ acc ∧ t < total
      · rw [if_pos h2]
        exact (List.prefix_append acc [t]).trans (addLoop_extends L total ts _)
      · rw [if_neg h2]
        exact addLoop_extends L total ts acc

theorem challengeSeed_starts (s : AIPlayer) (L g : Nat) (o : ChallengeOracle) (fuel : Nat)
    (r : List Nat) (hUse : o.use < 0.7 + s.personalityTraits.riskTaking)
    (hne : s.playerMistakePatterns ≠ [])
    (hr : generateChallengePattern s L g ChallengeType.adaptive (1 / 2) o fuel = some r) :
    ((sortedMistakeTiles s).filter (fun x => x < g * g)).take L <+: r := by
  unfold generateChallengePattern at hr
  obtain ⟨r0, hr0, hmap⟩ := Option.map_eq_some'.mp hr
  rw [difficultySwaps_half] at hmap
  subst hmap
  have hbase : ((sortedMistakeTiles s).filter (fun x => x < g * g)).take L <+:
      challengeBase s L g ChallengeType.adaptive o := by
    unfold challengeBase
    dsimp only
    rw [if_pos ⟨rfl, hUse⟩]
    have hne2 : ¬ s.playerMistakePatterns.isEmpty = true := by
      simpa [List.isEmpty_iff] using hne
    rw [if_neg hne2, seedLoop_eq]
    simp only [List.nil_append, List.length_nil, Nat.sub_zero]
    by_cases hlt : (((sortedMistakeTiles s).filter (fun x => x < g * g)).take L).length < L
    · rw [if_pos hlt]
      exact addLoop_extends L (g * g) _ _
    · rw [if_neg hlt]
  exact hbase.trans (challengeFill_extends (g * g) L o.fill fuel 0 _ r0 hr0)

theorem c2State_eq :
    recordResult (recordResult (mkAIPlayer .medium .balanced) false (some [8]) (some [])
        none none) false (some [8]) (some []) none none =
      { mkAIPlayer .medium .balanced with
          totalAttempts := 2
          playerMistakePatterns := [(8, 2)]
          playerPerformanceByPatternLength := [(1, { correct := 0, total := 2, rate := 0 })] } := by
  have hd : (Difficulty.medium = Difficulty.adaptive) = False := by simp
  norm_num [recordResult, recordPlayerMistake, recordGridPerf, recordLenPerf,
    adaptiveFailureUpdate, perfUpdate, tableGet, tableSet, bumpCount, mkAIPlayer, hd]

/-- Claim C2 (corrected): with the default options (adaptive type, difficulty
0.5), whenever the mistake-use draw falls below `0.7 + riskTaking` and the
mistake table is non-empty, the returned pattern starts with the most
frequently mistaken in-range cells, most-mistaken first, up to the requested
length; and in the spec's scenario — two recorded mistakes on cell 8, then a
3-cell challenge on a 3×3 grid — the returned pattern contains cell 8 whenever
the use draw falls below 0.7.  (The original "for every random outcome" form
is false: a use draw of 0.75 skips the mistake seeding entirely, see the
counterexample.) -/
theorem claim_c2_mistake_seeding :
    (∀ (s : AIPlayer) (L g : Nat) (o : ChallengeOracle) (fuel : Nat) (r : List Nat),
      o.use < 0.7 + s.personalityTraits.riskTaking →
      s.playerMistakePatterns ≠ [] →
      generateChallengePattern s L g ChallengeType.adaptive (1 / 2) o fuel = some r →
      ((sortedMistakeTiles s).filter (fun x => x < g * g)).take L <+: r) ∧
    (∀ (o : ChallengeOracle) (fuel : Nat) (r : List Nat),
      o.use < 0.7 →
      generateChallengePattern
        (recordResult (recordResult (mkAIPlayer .medium .balanced) false (some [8]) (some [])
          none none) false (some [8]) (some []) none none)
        3 3 ChallengeType.adaptive (1 / 2) o fuel = some r →
      8 ∈ r) := by
  constructor
  · exact fun s L g o fuel r hUse hne hr => challengeSeed_starts s L g o fuel r hUse hne hr
  · intro o fuel r hUse hr
    rw [c2State_eq] at hr
    have hpre := challengeSeed_starts _ 3 3 o fuel r
      (by simpa [mkAIPlayer, getPersonalityTraits] using hUse) (by simp [mkAIPlayer]) hr
    have hss : ((sortedMistakeTiles { mkAIPlayer .medium .balanced with
        totalAttempts := 2
        playerMistakePatterns := [(8, 2)]
        playerPerformanceByPatternLength :=
          [(1, { correct := 0, total := 2, rate := 0 })] }).filter
          (fun x => x < 3 * 3)).take 3 = [8] := by
      simp [sortedMistakeTiles, mkAIPlayer, List.insertionSort, List.orderedInsert]
    rw [hss] at hpre
    exact hpre.subset (List.mem_singleton_self 8)

/-- Witness for C2 at concrete calls: a 3-mistake table seeds the whole
3-cell challenge, and the scenario state yields a pattern containing 8. -/
theorem claim_c2_mistake_seeding_witness :
    ((sortedMistakeTiles { mkAIPlayer .medium .balanced with
        playerMistakePatterns := [(0, 3), (1, 2), (2, 1)] }).filter
        (fun x => x < 3 * 3)).take 3 <+: [0, 1, 2] ∧
    (8 : Nat) ∈ ([8, 0, 1] : List Nat) :=
  ⟨claim_c2_mistake_seeding.1
      { mkAIPlayer .medium .balanced with playerMistakePatterns := [(0, 3), (1, 2), (2, 1)] }
      3 3 c10Oracle 0 [0, 1, 2]
      (by norm_num [c10Oracle, mkAIPlayer, getPersonalityTraits])
      (by simp [mkAIPlayer])
      (by norm_num [generateChallengePattern, challengeBase, challengeFill,
            difficultySwaps_half, c10Oracle, mkAIPlayer, getPersonalityTraits,
            sortedMistakeTiles, List.insertionSort, List.orderedInsert, seedLoop,
            floorMul_zero_left]
          all_goals decide),
   claim_c2_mistake_seeding.2 c10Oracle 0 [8, 0, 1] (by norm_num [c10Oracle])
     (by rw [c2State_eq]
         norm_num [generateChallengePattern, challengeBase, challengeFill,
           difficultySwaps_half, c10Oracle, mkAIPlayer, getPersonalityTraits,
           sortedMistakeTiles, List.insertionSort, List.orderedInsert, seedLoop, addLoop,
           clusterLoop, fisherYates, fyAux, listSwap, challengeDirections,
           floorMul_zero_left]
         all_goals decide)⟩

/-- Oracle for the C2 counterexample: the mistake-use draw is 0.75 (a
perfectly ordinary `Math.random()` outcome), so the adaptive branch skips the
mistake table; the fill draws then select tiles 0, 1, 2. -/
def c2CexOracle : ChallengeOracle where
  use := 3 / 4
  seqStart := 0
  centerRow := 0
  centerCol := 0
  dirShuffle := fun _ => 0
  fill := fun k => if k = 0 then 0 else if k = 1 then 1 / 9 else 2 / 9
  swapA := fun _ => 0
  swapB := fun _ => 0

/-- Counterexample to C2 as stated: after the scenario's two recorded mistakes
on cell 8, a default-options challenge with in-range random draws returns
`[0, 1, 2]`, which does not contain cell 8 — the mistake seeding is gated on
`Math.random() < 0.7 + riskTaking`, not performed for every outcome. -/
theorem claim_c2_counterexample :
    generateChallengePattern
        (recordResult (recordResult (mkAIPlayer .medium .balanced) false (some [8]) (some [])
          none none) false (some [8]) (some []) none none)
        3 3 ChallengeType.adaptive (1 / 2) c2CexOracle 3 = some [0, 1, 2] ∧
      (8 : Nat) ∉ ([0, 1, 2] : List Nat) ∧
      ValidQ c2CexOracle.use ∧ ValidStream c2CexOracle.fill := by
  refine ⟨?_, by decide, by norm_num [ValidQ, c2CexOracle], ?_⟩
  · rw [c2State_eq]
    have h1 : floorMul ((1 : ℚ) / 9) 9 = 1 := floorMul_eval (by norm_num)
    have h2 : floorMul ((2 : ℚ) / 9) 9 = 2 := floorMul_eval (by norm_num)
    norm_num [generateChallengePattern, challengeBase, challengeFill, difficultySwaps_half,
      c2CexOracle, mkAIPlayer, getPersonalityTraits, floorMul_zero_left, h1, h2]
    all_goals decide
  · intro i
    dsimp [c2CexOracle]
    split_ifs <;> norm_num [ValidQ]
